import Mathlib

/-!
# Verification of the multi-line widget rendering engine
# of claude-code-statusline-pro (src/core/multiline.rs)

This file gives a shallow embedding, in Lean 4, of the multi-line widget
rendering engine: environment-variable substitution, the duration
formatter, the placeholder/template renderer with its JSON-path extractor
and recursive-descent arithmetic parser, and the widget/grid render cycle.

Modelling conventions:
* Rust `f64` arithmetic is idealized as exact rational arithmetic (`ℚ`).
  All constants and claim-relevant inputs are small integers for which the
  `f64` computations of the source are exact, so the idealization is
  faithful on every input any theorem below touches.
* Rust strings are modelled as `List Char` / `String`; the scanner loops
  that the source drives through the `regex` crate with the concrete
  patterns `\$\{([A-Z0-9_]+)\}`, `\{([^{}]+)\}` and `^(.+?)\s*-\s*(.+?)$`
  are embedded as explicit character-list scanners with the same
  leftmost-match semantics.
* External effects (the process environment, the HTTP client, the
  `jsonpath_lib` selector, user-supplied `Regex` compilation, the
  `dateparser` text-date parser, `chrono` timestamp validity and the
  current time) are modelled as components of an `Oracles` record; every
  theorem quantifies over the oracles, and witnesses instantiate them.
* Logging (`log_error`, `eprintln!`) is an effect with no influence on any
  returned value and is not modelled.
-/

namespace Statusline

/-! ## Character helpers (ASCII classes used by the source's regexes) -/

/-- ASCII uppercase letter, the `A-Z` part of the env-var name class. -/
def isAsciiUpper (c : Char) : Bool := 'A' ≤ c && c ≤ 'Z'

/-- ASCII lowercase letter. -/
def isAsciiLower (c : Char) : Bool := 'a' ≤ c && c ≤ 'z'

/-- ASCII digit `0-9`. -/
def isAsciiDigit (c : Char) : Bool := '0' ≤ c && c ≤ '9'

/-- ASCII letter. -/
def isAsciiAlpha (c : Char) : Bool := isAsciiUpper c || isAsciiLower c

/-- ASCII alphanumeric. -/
def isAsciiAlnum (c : Char) : Bool := isAsciiAlpha c || isAsciiDigit c

/-- The character class `[A-Z0-9_]` of the source's `ENV_PATTERN` regex
`\$\{([A-Z0-9_]+)\}` (multiline.rs line 611). -/
def isEnvNameChar (c : Char) : Bool := isAsciiUpper c || isAsciiDigit c || c == '_'

/-- Whitespace as used by `str::trim`, `char::is_whitespace` and the
regex class `\s`; modelled by Lean's `Char.isWhitespace` (space, tab,
newline, carriage return), which agrees with Unicode whitespace on every
character the claims touch. -/
def isWs (c : Char) : Bool := c.isWhitespace

/-- `str::trim` on a character list: drop whitespace from both ends. -/
def trimChars (l : List Char) : List Char :=
  ((l.dropWhile isWs).reverse.dropWhile isWs).reverse

/-- `str::trim` on a `String`. -/
def trimStr (s : String) : String := String.mk (trimChars s.data)

/-- ASCII lowercasing of one character (`eq_ignore_ascii_case` support). -/
def asciiLower (c : Char) : Char :=
  if isAsciiUpper c then Char.ofNat (c.toNat + 32) else c

/-- Rust `str::eq_ignore_ascii_case`. -/
def eqIgnoreAsciiCase (a b : String) : Bool :=
  a.data.map asciiLower == b.data.map asciiLower

/-- Substring containment, Rust `str::contains(&str)`:
the needle occurs contiguously in the haystack (the empty needle always
matches). -/
def hasSubstr (hay needle : List Char) : Bool :=
  needle.isPrefixOf hay ||
    match hay with
    | [] => false
    | _ :: t => hasSubstr t needle

/-- `str::contains` on `String`s. -/
def strContains (hay needle : String) : Bool := hasSubstr hay.data needle.data

/-- Rust `str::starts_with(&str)`. -/
def strStarts (s pre : String) : Bool := pre.data.isPrefixOf s.data

/-- Rust `str::trim_end_matches('/')`: strip every trailing `/`. -/
def trimEndSlashes (s : String) : String :=
  String.mk ((s.data.reverse.dropWhile (· == '/')).reverse)

/-! ## Environment-variable substitution (`substitute_env`, lines 603-626)

The source protects escaped dollars by first replacing `\$` with the
placeholder `"\u{0000}DOLLAR\u{0000}"`, then replaces every match of
`\$\{([A-Z0-9_]+)\}` with the named environment variable's value (empty
when unset), and finally replaces the placeholder back with `$`. -/

/-- The process environment as seen through `std::env::var`. -/
def EnvMap := String → Option String

/-- The escape placeholder `"\u{0000}DOLLAR\u{0000}"` (line 605). -/
def dollarPlaceholderChars : List Char :=
  ['\x00', 'D', 'O', 'L', 'L', 'A', 'R', '\x00']

/-- Step 1 of `substitute_env`: `input.replace(r"\$", DOLLAR_PLACEHOLDER)`,
replacing leftmost non-overlapping occurrences of `\$`. -/
def replaceEscapedDollar : List Char → List Char
  | [] => []
  | c :: rest =>
    if c = '\\' ∧ rest.head? = some '$' then
      dollarPlaceholderChars ++ replaceEscapedDollar rest.tail
    else
      c :: replaceEscapedDollar rest
termination_by l => l.length
decreasing_by
  all_goals simp_wf
  all_goals omega

/-- Step 2 of `substitute_env`: `replace_all` of the compiled regex
`\$\{([A-Z0-9_]+)\}`, substituting `std::env::var(name).unwrap_or_default()`
for each leftmost non-overlapping match. -/
def substEnvVars (env : EnvMap) : List Char → List Char
  | [] => []
  | c :: rest =>
    if c = '$' ∧ rest.head? = some '{' then
      let name := rest.tail.takeWhile isEnvNameChar
      let r3 := rest.tail.dropWhile isEnvNameChar
      if name ≠ [] ∧ r3.head? = some '}' then
        ((env (String.mk name)).getD (String.mk [])).data ++ substEnvVars env r3.tail
      else
        c :: substEnvVars env rest
    else
      c :: substEnvVars env rest
termination_by l => l.length
decreasing_by
  all_goals simp_wf
  all_goals try (have h1 := (List.dropWhile_sublist (l := t.tail) isEnvNameChar).length_le)
  all_goals try (have h2 := (List.tail_sublist t).length_le)
  all_goals omega

/-- Step 3 of `substitute_env`: `step2.replace(DOLLAR_PLACEHOLDER, "$")`. -/
def restoreDollar : List Char → List Char
  | [] => []
  | c :: rest =>
    if (c :: rest).take 8 = dollarPlaceholderChars then
      '$' :: restoreDollar (rest.drop 7)
    else
      c :: restoreDollar rest
termination_by l => l.length
decreasing_by
  all_goals simp_wf
  all_goals omega

/-- `substitute_env` (multiline.rs lines 603-626): protect `\$`, expand
`${NAME}` placeholders, restore the protected dollars. -/
def substituteEnv (env : EnvMap) (s : String) : String :=
  String.mk (restoreDollar (substEnvVars env (replaceEscapedDollar s.data)))

/-! ## Rational idealization of the `f64` operations of the source -/

/-- `f64::floor`, exact over `ℚ` (`Int./` on `num`/`den` is floor division
because `den > 0`). -/
def ratFloor (q : ℚ) : ℤ := q.num / q.den

/-- `f64::ceil`, exact over `ℚ`. -/
def ratCeil (q : ℚ) : ℤ := -ratFloor (-q)

/-- `f64::trunc`: round toward zero. -/
def ratTrunc (q : ℚ) : ℤ := if 0 ≤ q then ratFloor q else ratCeil q

/-- `f64::round`: round half away from zero. -/
def ratRound (q : ℚ) : ℤ :=
  if 0 ≤ q then ratFloor (q + 1 / 2) else ratCeil (q - 1 / 2)

/-- `f64::floor` kept in the numeric domain. -/
def floorQ (q : ℚ) : ℚ := (ratFloor q : ℚ)

/-- `f64::ceil` kept in the numeric domain. -/
def ceilQ (q : ℚ) : ℚ := (ratCeil q : ℚ)

/-- `f64::trunc` kept in the numeric domain. -/
def truncQ (q : ℚ) : ℚ := (ratTrunc q : ℚ)

/-- `f64::fract` = `self - self.trunc()`. -/
def fractQ (q : ℚ) : ℚ := q - truncQ q

/-- The `%` operator on `f64`: remainder carrying the dividend's sign,
`a - b * trunc(a / b)`. -/
def fmodQ (a b : ℚ) : ℚ := a - b * truncQ (a / b)

/-- `f64_to_i64` (multiline.rs lines 1273-1276): `value.trunc() as i64`.
The saturating behaviour of the `as` cast at the `i64` range boundary is
outside the exact-rational model; every value the theorems touch is far
inside the range. -/
def f64ToI64 (q : ℚ) : ℤ := ratTrunc q

/-- Exact decimal digits of a rational in `[0, 1)`, fuel-bounded; models
the fractional digits of Rust's shortest-roundtrip `f64` display for the
terminating decimals that arise from exact `f64` values. -/
def decDigits : ℚ → ℕ → List Char
  | _, 0 => []
  | q, fuel + 1 =>
    if q = 0 then []
    else
      let d := ratFloor (q * 10)
      Char.ofNat (48 + d.toNat) :: decDigits (q * 10 - (d : ℚ)) fuel

/-- Rust `{}` display of an `f64` value: integral values print with no
decimal point (`5.0` prints as `5`), other values print sign, integer
part, `.`, fractional digits. -/
def f64Display (q : ℚ) : String :=
  if q.den = 1 then toString q.num
  else
    (if q < 0 then String.mk ['-'] else String.mk []) ++ toString (ratFloor |q|) ++
      String.mk ('.' :: decDigits (|q| - (ratFloor |q| : ℚ)) 64)

/-! ## Duration formatting (`format_time_difference`, lines 1170-1254) -/

/-- `SECOND_MS` (line 32). -/
def SECOND_MS : ℚ := 1000

/-- `MINUTE_MS` (line 33). -/
def MINUTE_MS : ℚ := 60 * SECOND_MS

/-- `HOUR_MS` (line 34). -/
def HOUR_MS : ℚ := 60 * MINUTE_MS

/-- `DAY_MS` (line 35). -/
def DAY_MS : ℚ := 24 * HOUR_MS

/-- `MONTH_MS` (line 36): 30-day months. -/
def MONTH_MS : ℚ := 30 * DAY_MS

/-- `YEAR_MS` (line 37): 365-day years. -/
def YEAR_MS : ℚ := 365 * DAY_MS

/-- `format_number` (lines 1256-1262): integral values print via
`f64_to_i64`, others via the `f64` display. -/
def formatNumber (value : ℚ) : String :=
  if fractQ value = 0 then toString (f64ToI64 value) else f64Display value

/-- `is_time_format` (lines 1146-1168): the recognized duration tokens. -/
def isTimeFormat (format : String) : Bool :=
  format == "Y" || format == "years" || format == "M" || format == "months" ||
  format == "D" || format == "days" || format == "H" || format == "hours" ||
  format == "m" || format == "minutes" || format == "S" || format == "seconds" ||
  format == "YMD" || format == "DHm" || format == "HmS" || format == "mS" ||
  format == "Hm" || format == "dhm" || format == "hm"

/-- `format_time_difference` (lines 1170-1254). The `!diff_ms.is_finite()`
guard of the source cannot fire in the exact-rational model (every `ℚ` is
finite) and is therefore not represented. The `match` on the format string
is rendered as an if-chain; the source's match arms are disjoint, so the
order is immaterial. -/
def formatTimeDifference (diff_ms : ℚ) (format : String) : String :=
  let sign : ℚ := if diff_ms < 0 then -1 else 1
  let abs_ms := |diff_ms|
  let years := floorQ (abs_ms / YEAR_MS)
  let months := floorQ (abs_ms / MONTH_MS)
  let days := floorQ (abs_ms / DAY_MS)
  let hours := floorQ (abs_ms / HOUR_MS)
  let minutes := floorQ (abs_ms / MINUTE_MS)
  let remaining_after_days := fmodQ abs_ms DAY_MS
  let hours_in_day := floorQ (remaining_after_days / HOUR_MS)
  let remaining_after_hours := fmodQ remaining_after_days HOUR_MS
  let minutes_in_hour := floorQ (remaining_after_hours / MINUTE_MS)
  let remaining_after_minutes := fmodQ remaining_after_hours MINUTE_MS
  let seconds_in_minute := floorQ (remaining_after_minutes / SECOND_MS)
  let pre := if sign < 0 then String.mk ['-'] else String.mk []
  if format = "Y" ∨ format = "years" then formatNumber (sign * years)
  else if format = "M" ∨ format = "months" then formatNumber (sign * months)
  else if format = "D" ∨ format = "days" then formatNumber (sign * ceilQ (abs_ms / DAY_MS))
  else if format = "H" ∨ format = "hours" then formatNumber (sign * ceilQ (abs_ms / HOUR_MS))
  else if format = "m" ∨ format = "minutes" then formatNumber (sign * ceilQ (abs_ms / MINUTE_MS))
  else if format = "S" ∨ format = "seconds" then formatNumber (sign * ceilQ (abs_ms / SECOND_MS))
  else if format = "YMD" then
    let months_in_year := max (fmodQ months 12) 0
    let days_after_months := max (months * (-30) + days) 0
    pre ++ toString (f64ToI64 years) ++ "年" ++ toString (f64ToI64 months_in_year) ++
      "月" ++ toString (f64ToI64 days_after_months) ++ "天"
  else if format = "DHm" ∨ format = "dhm" then
    pre ++ toString (f64ToI64 days) ++ "天" ++ toString (f64ToI64 hours_in_day) ++
      "小时" ++ toString (f64ToI64 minutes_in_hour) ++ "分钟"
  else if format = "HmS" then
    pre ++ toString (f64ToI64 hours) ++ "小时" ++ toString (f64ToI64 minutes_in_hour) ++
      "分钟" ++ toString (f64ToI64 seconds_in_minute) ++ "秒"
  else if format = "mS" then
    pre ++ toString (f64ToI64 minutes) ++ "分钟" ++ toString (f64ToI64 seconds_in_minute) ++ "秒"
  else if format = "Hm" ∨ format = "hm" then
    pre ++ toString (f64ToI64 hours) ++ "小时" ++ toString (f64ToI64 minutes_in_hour) ++ "分钟"
  else formatNumber (sign * ceilQ (abs_ms / DAY_MS))

/-! ### Spec-words renderings used to compare against the code (C2, C3) -/

/-- Modelled from the spec's words for claim C2: a single-unit duration
token renders `sign(v) × ceil(|v| / unit_ms)` as a signed integer. -/
def specSingleUnitRender (v : ℚ) (unitMs : ℚ) : String :=
  toString ((if v < 0 then (-1 : ℤ) else 1) * ratCeil (|v| / unitMs))

/-- Modelled from the spec's words for claim C2: floor variant of the
single-unit rendering, used to state the amended claim. -/
def specSingleUnitFloorRender (v : ℚ) (unitMs : ℚ) : String :=
  toString ((if v < 0 then (-1 : ℤ) else 1) * ratFloor (|v| / unitMs))

/-- Modelled from the spec's words for claim C3: positional `YMD`
decomposition — years, then months of the remainder, then days of the
remainder, each field floored. -/
def specPositionalYMD (v : ℚ) : String :=
  let a := |v|
  let y := ratFloor (a / YEAR_MS)
  let r1 := a - (y : ℚ) * YEAR_MS
  let mo := ratFloor (r1 / MONTH_MS)
  let r2 := r1 - (mo : ℚ) * MONTH_MS
  let d := ratFloor (r2 / DAY_MS)
  (if v < 0 then String.mk ['-'] else String.mk []) ++
    toString y ++ "年" ++ toString mo ++ "月" ++ toString d ++ "天"

/-- Modelled from the spec's words for claim C3: positional `DHm`
decomposition, each field floored. -/
def specPositionalDHm (v : ℚ) : String :=
  let a := |v|
  let d := ratFloor (a / DAY_MS)
  let r1 := a - (d : ℚ) * DAY_MS
  let h := ratFloor (r1 / HOUR_MS)
  let r2 := r1 - (h : ℚ) * HOUR_MS
  let mi := ratFloor (r2 / MINUTE_MS)
  (if v < 0 then String.mk ['-'] else String.mk []) ++
    toString d ++ "天" ++ toString h ++ "小时" ++ toString mi ++ "分钟"

/-- Modelled from the spec's words for claim C3: positional `HmS`
decomposition, each field floored. -/
def specPositionalHmS (v : ℚ) : String :=
  let a := |v|
  let h := ratFloor (a / HOUR_MS)
  let r1 := a - (h : ℚ) * HOUR_MS
  let mi := ratFloor (r1 / MINUTE_MS)
  let r2 := r1 - (mi : ℚ) * MINUTE_MS
  let s := ratFloor (r2 / SECOND_MS)
  (if v < 0 then String.mk ['-'] else String.mk []) ++
    toString h ++ "小时" ++ toString mi ++ "分钟" ++ toString s ++ "秒"

/-- Modelled from the spec's words for claim C3: positional `mS`
decomposition, each field floored. -/
def specPositionalmS (v : ℚ) : String :=
  let a := |v|
  let mi := ratFloor (a / MINUTE_MS)
  let r1 := a - (mi : ℚ) * MINUTE_MS
  let s := ratFloor (r1 / SECOND_MS)
  (if v < 0 then String.mk ['-'] else String.mk []) ++
    toString mi ++ "分钟" ++ toString s ++ "秒"

/-- Modelled from the spec's words for claim C3: positional `Hm`
decomposition, each field floored. -/
def specPositionalHm (v : ℚ) : String :=
  let a := |v|
  let h := ratFloor (a / HOUR_MS)
  let r1 := a - (h : ℚ) * HOUR_MS
  let mi := ratFloor (r1 / MINUTE_MS)
  (if v < 0 then String.mk ['-'] else String.mk []) ++
    toString h ++ "小时" ++ toString mi ++ "分钟"

/-! ## JSON values and the external-effect oracles -/

/-- `serde_json::Value`. Numbers are idealized as exact rationals (the
source reads them through `as_f64`); object fields are an association
list looked up by key, like the `serde_json` map. -/
inductive Json where
  | null
  | bool (b : Bool)
  | num (q : ℚ)
  | str (s : String)
  | arr (items : List Json)
  | obj (fields : List (String × Json))

/-- The engine's external collaborators, abstracted as oracles:
* `env` — `std::env::var`;
* `regex` — `Regex::new` (`none` = compile error) composed with
  `is_match` for user-supplied patterns;
* `jsonStr` — `serde_json::from_str` applied to strings met mid-path in
  `extract_value` (`none` = not valid JSON);
* `dateText` — the `dateparser` / RFC 3339 / RFC 2822 fallback chain of
  `parse_date_string`, yielding epoch milliseconds;
* `jsonPath` — `jsonpath_lib::select` (error = malformed path);
* `http` — the blocking `ureq` request plus JSON body parse, taking
  method, url, headers and timeout;
* `nowMillis` — `Utc::now().timestamp_millis()`;
* `tsValid` — whether `Utc.timestamp_millis_opt(m).single()` is `Some`. -/
structure Oracles where
  env : EnvMap
  regex : String → Option (String → Bool)
  jsonStr : String → Option Json
  dateText : String → Option ℤ
  jsonPath : Json → String → Except String (List Json)
  http : String → String → List (String × String) → ℕ → Except String Json
  nowMillis : ℤ
  tsValid : ℤ → Bool

/-- `now_timestamp_millis` (lines 1264-1266). -/
def nowQ (O : Oracles) : ℚ := (O.nowMillis : ℚ)

/-! ## Number and date parsing (`parse_date_*`, `value_to_f64`) -/

/-- Digit run to a natural number. -/
def digitsToNat (l : List Char) : ℕ :=
  l.foldl (fun a c => a * 10 + (c.toNat - 48)) 0

/-- Rust `str::parse::<f64>()`, idealized to exact rationals: optional
sign, decimal mantissa with at most one point and at least one digit,
optional decimal exponent. The `inf`/`infinity`/`nan` spellings Rust also
accepts denote non-finite values outside the `ℚ` model and are modelled
as parse failures; no claim input reaches them. Rounding to binary
`f64` is the idealization discussed in the header. -/
def parseF64 (s : String) : Option ℚ :=
  let cs := s.data
  let (neg, cs1) : Bool × List Char :=
    match cs with
    | '+' :: t => (false, t)
    | '-' :: t => (true, t)
    | _ => (false, cs)
  let d1 := cs1.takeWhile isAsciiDigit
  let cs2 := cs1.dropWhile isAsciiDigit
  let (d2, cs3) : List Char × List Char :=
    match cs2 with
    | '.' :: t => (t.takeWhile isAsciiDigit, t.dropWhile isAsciiDigit)
    | _ => ([], cs2)
  if d1 = [] ∧ d2 = [] then none
  else
    -- (the fractionless case is split out so that it performs no rational
    -- arithmetic; the omitted summand is the zero contributed by the empty
    -- digit run, so the value is unchanged)
    let mant : ℚ :=
      if d2 = [] then (digitsToNat d1 : ℚ)
      else (digitsToNat d1 : ℚ) + (digitsToNat d2 : ℚ) / (10 : ℚ) ^ d2.length
    let signed : ℚ := if neg then -mant else mant
    match cs3 with
    | [] => some signed
    | e :: t =>
      if e = 'e' ∨ e = 'E' then
        let (eneg, t1) : Bool × List Char :=
          match t with
          | '+' :: u => (false, u)
          | '-' :: u => (true, u)
          | _ => (false, t)
        let ed := t1.takeWhile isAsciiDigit
        if ed = [] ∨ t1.dropWhile isAsciiDigit ≠ [] then none
        else
          let ex : ℚ := (10 : ℚ) ^ digitsToNat ed
          some (signed * (if eneg then 1 / ex else ex))
      else none

/-- `parse_numeric_timestamp` (lines 1108-1115): values at or above
`1.0e12` are milliseconds, smaller values are seconds; round, then check
`chrono` range validity through the oracle. The NaN/infinity guard cannot
fire in the `ℚ` model. -/
def parseNumericTimestamp (O : Oracles) (num : ℚ) : Option ℤ :=
  let timestamp := if (1000000000000 : ℚ) ≤ num then num else num * 1000
  let millis := ratRound timestamp
  if O.tsValid millis then some millis else none

/-- `parse_date_string` (lines 1117-1140): trim; empty fails; a float
literal goes through the numeric-timestamp heuristic; otherwise the
text-date chain (`dateparser`, RFC 3339, RFC 2822) modelled by the
`dateText` oracle. A `DateTime<Utc>` is modelled by its
`timestamp_millis()` value. -/
def parseDateString (O : Oracles) (input : String) : Option ℤ :=
  let trimmed := trimStr input
  if trimmed = String.mk [] then none
  else
    match parseF64 trimmed with
    | some num => parseNumericTimestamp O num
    | none => O.dateText trimmed

/-- `parse_date_value` (lines 1096-1106). The final arm calls
`Value::as_str()`, which is `None` for arrays and objects. -/
def parseDateValue (O : Oracles) : Json → Option ℤ
  | .num q => parseNumericTimestamp O q
  | .str s => parseDateString O s
  | .bool _ => none
  | .null => none
  | .arr _ => none
  | .obj _ => none

/-- `calculate_time_difference` (lines 1142-1144): `(end - start)` in
milliseconds (exact on the integer-millisecond model of `DateTime`). -/
def calculateTimeDifference (startMs endMs : ℤ) : ℚ := ((endMs - startMs : ℤ) : ℚ)

/-- `value_to_f64` (lines 1022-1047). In the exact model every `Json.num`
is finite, so the `Non-finite number` error arm cannot fire. -/
def valueToF64 (O : Oracles) : Json → Except String ℚ
  | .num q => .ok q
  | .str s =>
    match parseF64 (trimStr s) with
    | some number => .ok number
    | none =>
      match parseDateString O (trimStr s) with
      | some ms => .ok (ms : ℚ)
      | none => .error ("Invalid numeric string: " ++ s)
  | .bool b => .ok (if b then 1 else 0)
  | .null => .ok 0
  | .arr items =>
    match parseDateValue O (.arr items) with
    | some ms => .ok (ms : ℚ)
    | none => .error (String.mk [] ++ "Unsupported value type for numeric conversion")
  | .obj fields =>
    match parseDateValue O (.obj fields) with
    | some ms => .ok (ms : ℚ)
    | none => .error (String.mk [] ++ "Unsupported value type for numeric conversion")

/-! ## Strict JSON-path extraction (`extract_value`, lines 732-814) -/

/-- Rust `str::parse::<usize>()` (digits with an optional leading `+`);
overflow is ignored, no claim input approaches it. -/
def strToNat? (s : String) : Option ℕ :=
  let cs := match s.data with
    | '+' :: t => t
    | t => t
  if cs ≠ [] ∧ cs.all isAsciiDigit then some (digitsToNat cs) else none

/-- `path.split('.')` on a character list. -/
def splitOnDot : List Char → List (List Char)
  | [] => [[]]
  | c :: rest =>
    if c = '.' then [] :: splitOnDot rest
    else
      match splitOnDot rest with
      | h :: t => (c :: h) :: t
      | [] => [[c]]

/-- `parse_array_segment` (lines 805-814): first `[`, first `]`, the
index text between them; `None` unless the first `]` comes after the
first `[`. -/
def parseArraySegment (seg : String) : Option (String × String) :=
  match seg.data.findIdx? (· = '['), seg.data.findIdx? (· = ']') with
  | some o, some c =>
    if c ≤ o then none
    else some (String.mk (seg.data.take o), String.mk ((seg.data.drop (o + 1)).take (c - o - 1)))
  | _, _ => none

/-- The per-segment traversal loop of `extract_value`: trim each segment,
skip empty and `$` segments, transparently re-parse JSON-encoded strings,
then resolve `name[idx]`, bare numeric index, or object field. -/
def extractValueGo (O : Oracles) : List (List Char) → Json → Except String Json
  | [], cur => .ok cur
  | rawSeg :: rest, cur =>
    let seg := String.mk (trimChars rawSeg)
    if seg = String.mk [] ∨ seg = String.mk ['$'] then extractValueGo O rest cur
    else
      let cur1 := match cur with
        | .str s =>
          match O.jsonStr s with
          | some parsed => parsed
          | none => .str s
        | other => other
      match parseArraySegment seg with
      | some (name, index) =>
        match cur1 with
        | .obj fields =>
          match fields.lookup name with
          | some base =>
            match strToNat? index with
            | some idx =>
              match base with
              | .arr items =>
                match items[idx]? with
                | some v => extractValueGo O rest v
                | none => .error ("Missing index " ++ index ++ " for field " ++ name)
              | _ => .error ("Expected array for field " ++ name)
            | none => .error ("Invalid index: " ++ index)
          | none => .error ("Missing field: " ++ name)
        | _ => .error ("Expected object for field: " ++ name)
      | none =>
        match strToNat? seg with
        | some idx =>
          match cur1 with
          | .arr items =>
            match items[idx]? with
            | some v => extractValueGo O rest v
            | none => .error ("Missing index " ++ seg)
          | _ => .error ("Expected array for index " ++ seg)
        | none =>
          match cur1 with
          | .obj fields =>
            match fields.lookup seg with
            | some v => extractValueGo O rest v
            | none => .error ("Missing field: " ++ seg)
          | _ => .error ("Expected object for field " ++ seg)

/-- `extract_value` (lines 732-803): empty path returns the whole datum,
`now()` returns the current timestamp, otherwise traverse the dotted
path. -/
def extractValue (O : Oracles) (path : String) (data : Json) : Except String Json :=
  if path = String.mk [] then .ok data
  else if path = String.mk ['n', 'o', 'w', '(', ')'] then .ok (.num (nowQ O))
  else extractValueGo O (splitOnDot path.data) data

/-- `value_token_to_f64` (lines 1010-1020): float literal, else `now()`
case-insensitively, else strict extraction coerced leniently with every
failure collapsing to `0`. -/
def valueTokenToF64 (O : Oracles) (token : String) (data : Json) : ℚ :=
  match parseF64 token with
  | some number => number
  | none =>
    if eqIgnoreAsciiCase token (String.mk ['n', 'o', 'w', '(', ')']) then nowQ O
    else
      match extractValue O token data with
      | .ok v =>
        match valueToF64 O v with
        | .ok q => q
        | .error _ => 0
      | .error _ => 0

/-! ## JSON serialization (`serde_json` `Display`, used by `to_string()`) -/

/-- Lowercase hex digit. -/
def hexDigit (n : ℕ) : Char :=
  if n < 10 then Char.ofNat (48 + n) else Char.ofNat (87 + n)

/-- One character of a JSON string, escaped as `serde_json` does. -/
def escapeJsonChar (c : Char) : List Char :=
  if c = '"' then ['\\', '"']
  else if c = '\\' then ['\\', '\\']
  else if c = '\x08' then ['\\', 'b']
  else if c = '\x0c' then ['\\', 'f']
  else if c = '\n' then ['\\', 'n']
  else if c = '\r' then ['\\', 'r']
  else if c = '\t' then ['\\', 't']
  else if c.toNat < 32 then
    ['\\', 'u', '0', '0', hexDigit (c.toNat / 16), hexDigit (c.toNat % 16)]
  else [c]

/-- JSON string literal with quotes and escapes. -/
def quoteJsonStr (s : String) : String :=
  String.mk ('"' :: s.data.flatMap escapeJsonChar ++ ['"'])

/-- `serde_json::Number::to_string`. Integer-typed numbers print without a
decimal point; our model prints every integral rational that way. (A
float-typed `serde` number of integral value would print a trailing `.0`;
the model does not track number provenance, and no claim depends on it.) -/
def serdeNumToString (q : ℚ) : String := f64Display q

mutual

/-- `Value::to_string()`: compact JSON serialization. -/
def jsonToString : Json → String
  | .null => "null"
  | .bool b => cond b ("true") ("false")
  | .num q => serdeNumToString q
  | .str s => quoteJsonStr s
  | .arr items => String.mk ['['] ++ jsonArrToString items ++ String.mk [']']
  | .obj fields => String.mk ['\x7b'] ++ jsonObjToString fields ++ String.mk ['\x7d']

/-- Comma-joined serialization of array items. -/
def jsonArrToString : List Json → String
  | [] => String.mk []
  | [v] => jsonToString v
  | v :: rest => jsonToString v ++ String.mk [','] ++ jsonArrToString rest

/-- Comma-joined serialization of object fields. -/
def jsonObjToString : List (String × Json) → String
  | [] => String.mk []
  | [(k, v)] => quoteJsonStr k ++ String.mk [':'] ++ jsonToString v
  | (k, v) :: rest =>
    quoteJsonStr k ++ String.mk [':'] ++ jsonToString v ++ String.mk [','] ++
      jsonObjToString rest

end

/-! ## The arithmetic expression parser (`MathParser`, lines 838-1008)

The recursive-descent parser is embedded over the remaining character
list, fuelled for termination. Each parser stage either consumes a
character before recursing or hands over to the next of the four stages,
so `4 * length + 4` fuel can never run out; the fuel-exhaustion arm is a
model artifact that no reachable computation hits. -/

/-- `is_identifier_start` (lines 1002-1004). -/
def isIdentStart (c : Char) : Bool := isAsciiAlpha c || c == '_'

/-- `is_identifier_part` (lines 1006-1008). -/
def isIdentPart (c : Char) : Bool :=
  isAsciiAlnum c || c == '_' || c == '[' || c == ']'

/-- `MathParser::parse_number` (lines 928-940): take the digit/dot run
and parse it as `f64`. -/
def pNumber (cs : List Char) : Except String (ℚ × List Char) :=
  let tok := cs.takeWhile (fun c => isAsciiDigit c || c == '.')
  match parseF64 (String.mk tok) with
  | some q => .ok (q, cs.dropWhile (fun c => isAsciiDigit c || c == '.'))
  | none => .error ("Invalid number in expression")

/-- `MathParser::parse_identifier` (lines 942-968): take the
identifier/dot run; `now()` yields the current timestamp, any other call
syntax is unsupported, a bare identifier resolves leniently through
`value_token_to_f64`. -/
def pIdent (O : Oracles) (data : Json) (cs : List Char) :
    Except String (ℚ × List Char) :=
  let tok := cs.takeWhile (fun c => isIdentPart c || c == '.')
  let rest := cs.dropWhile (fun c => isIdentPart c || c == '.')
  if eqIgnoreAsciiCase (String.mk tok) (String.mk ['n', 'o', 'w']) then
    match rest with
    | '(' :: r2 =>
      match r2 with
      | ')' :: r3 => .ok (nowQ O, r3)
      | _ => .error ("Invalid now() invocation")
    | _ => .ok (valueTokenToF64 O (trimStr (String.mk tok)) data, rest)
  else
    match rest with
    | '(' :: _ => .error ("Unsupported function in expression: " ++ String.mk tok)
    | _ => .ok (valueTokenToF64 O (trimStr (String.mk tok)) data, rest)

mutual

/-- `MathParser::parse_expression` (lines 855-872). -/
def pExpr (O : Oracles) (data : Json) : ℕ → List Char → Except String (ℚ × List Char)
  | 0, _ => .error ("parser fuel exhausted")
  | fuel + 1, cs =>
    match pTerm O data fuel cs with
    | .error e => .error e
    | .ok (v, cs1) => pExprLoop O data fuel v cs1

/-- The `+`/`-` loop of `parse_expression`; on loop exit the skipped
whitespace stays consumed, as in the source. -/
def pExprLoop (O : Oracles) (data : Json) : ℕ → ℚ → List Char → Except String (ℚ × List Char)
  | 0, _, _ => .error ("parser fuel exhausted")
  | fuel + 1, v, cs =>
    let cs1 := cs.dropWhile isWs
    match cs1 with
    | '+' :: rest =>
      match pTerm O data fuel rest with
      | .error e => .error e
      | .ok (w, cs2) => pExprLoop O data fuel (v + w) cs2
    | '-' :: rest =>
      match pTerm O data fuel rest with
      | .error e => .error e
      | .ok (w, cs2) => pExprLoop O data fuel (v - w) cs2
    | _ => .ok (v, cs1)

/-- `MathParser::parse_term` (lines 874-895). -/
def pTerm (O : Oracles) (data : Json) : ℕ → List Char → Except String (ℚ × List Char)
  | 0, _ => .error ("parser fuel exhausted")
  | fuel + 1, cs =>
    match pFactor O data fuel cs with
    | .error e => .error e
    | .ok (v, cs1) => pTermLoop O data fuel v cs1

/-- The `*`/`/` loop of `parse_term`, with the `Division by zero` check
on the right operand (lines 883-890). -/
def pTermLoop (O : Oracles) (data : Json) : ℕ → ℚ → List Char → Except String (ℚ × List Char)
  | 0, _, _ => .error ("parser fuel exhausted")
  | fuel + 1, v, cs =>
    let cs1 := cs.dropWhile isWs
    match cs1 with
    | '*' :: rest =>
      match pFactor O data fuel rest with
      | .error e => .error e
      | .ok (w, cs2) => pTermLoop O data fuel (v * w) cs2
    | '/' :: rest =>
      match pFactor O data fuel rest with
      | .error e => .error e
      | .ok (w, cs2) =>
        if w = 0 then .error ("Division by zero")
        else pTermLoop O data fuel (v / w) cs2
    | _ => .ok (v, cs1)

/-- `MathParser::parse_factor` (lines 897-906): unary signs. -/
def pFactor (O : Oracles) (data : Json) : ℕ → List Char → Except String (ℚ × List Char)
  | 0, _ => .error ("parser fuel exhausted")
  | fuel + 1, cs =>
    let cs1 := cs.dropWhile isWs
    match cs1 with
    | '+' :: rest => pFactor O data fuel rest
    | '-' :: rest =>
      match pFactor O data fuel rest with
      | .error e => .error e
      | .ok (v, cs2) => .ok (-v, cs2)
    | _ => pPrimary O data fuel cs1

/-- `MathParser::parse_primary` (lines 908-926): parenthesized
subexpression, number, or identifier. -/
def pPrimary (O : Oracles) (data : Json) : ℕ → List Char → Except String (ℚ × List Char)
  | 0, _ => .error ("parser fuel exhausted")
  | fuel + 1, cs =>
    let cs1 := cs.dropWhile isWs
    match cs1 with
    | '(' :: rest =>
      match pExpr O data fuel rest with
      | .error e => .error e
      | .ok (v, cs2) =>
        match cs2 with
        | ')' :: cs3 => .ok (v, cs3)
        | _ => .error ("Unmatched parenthesis in expression")
    | c :: rest =>
      if isAsciiDigit c || c == '.' then pNumber (c :: rest)
      else if isIdentStart c then pIdent O data (c :: rest)
      else .error ("Unexpected token in expression")
    | [] => .error ("Unexpected token in expression")

end

/-- `evaluate_math_expression` (lines 831-836): full parse, then
`expect_end` — any non-whitespace trailing character fails. -/
def evaluateMathExpression (O : Oracles) (expr : String) (data : Json) :
    Except String ℚ :=
  match pExpr O data (4 * expr.data.length + 4) expr.data with
  | .error e => .error e
  | .ok (v, rest) =>
    if rest.all isWs then .ok v
    else .error ("Unexpected trailing characters in expression")

/-- `is_math_expression` (lines 816-829): contains one of `+ - * / ( )`
and is not itself a bare identifier path matching
`^[a-zA-Z_][a-zA-Z0-9_.]*$`. -/
def isMathExpression (expr : String) : Bool :=
  let trimmed := trimChars expr.data
  (trimmed.any (fun c => c == '+' || c == '-' || c == '*' || c == '/' ||
      c == '(' || c == ')')) &&
  !(match trimmed with
    | [] => false
    | c :: rest => isAsciiAlpha c || c == '_' |>.and
        (rest.all (fun d => isAsciiAlnum d || d == '_' || d == '.')))

/-! ## Expression evaluation (`evaluate_expression`, lines 684-730) -/

/-- The tail of the `TIME_DIFF_PATTERN` regex `\s*-\s*(.+?)$` matched
against the remainder after a candidate left capture: optional
whitespace, a `-`, then the right capture — greedy `\s*` backs off one
character when everything after the minus is whitespace, because `(.+?)`
needs at least one character. -/
def tdMatchTail (t : List Char) : Option (List Char) :=
  match t.dropWhile isWs with
  | '-' :: u =>
    match u.dropWhile isWs with
    | [] =>
      match u.reverse with
      | lastc :: _ => some [lastc]
      | [] => none
    | r => some r
  | _ => none

/-- Leftmost-lazy matching of `^(.+?)\s*-\s*(.+?)$` (line 692): the left
capture is the shortest nonempty prefix after which the remainder of the
pattern matches the rest of the string. -/
def timeDiffSplitGo (acc : List Char) : List Char → Option (List Char × List Char)
  | [] => none
  | c :: rest =>
    match tdMatchTail rest with
    | some right => some (acc ++ [c], right)
    | none => timeDiffSplitGo (acc ++ [c]) rest

/-- `TIME_DIFF_PATTERN` capture extraction. -/
def timeDiffSplit (cs : List Char) : Option (List Char × List Char) :=
  timeDiffSplitGo [] cs

/-- `resolve_time_operand` (lines 722-730). -/
def resolveTimeOperand (O : Oracles) (expr : String) (data : Json) : Option ℤ :=
  if eqIgnoreAsciiCase expr (String.mk ['n', 'o', 'w', '(', ')']) then some O.nowMillis
  else
    match extractValue O expr data with
    | .ok v => parseDateValue O v
    | .error _ => none

/-- The shared tail of `evaluate_expression` after the time-difference
branch declines: arithmetic if `is_math_expression`, else strict path
extraction. `Number::from_f64` cannot yield `None` in the exact model, so
the evaluated number always becomes `Json.num`. -/
def evalExprRest (O : Oracles) (trimmed : String) (data : Json) : Except String Json :=
  if isMathExpression trimmed then
    match evaluateMathExpression O trimmed data with
    | .ok number => .ok (.num number)
    | .error e => .error e
  else extractValue O trimmed data

/-- `evaluate_expression` (lines 684-720): literal `now()`; then the
`<left> - <right>` time-difference pattern when both operands resolve as
times (the difference is `left − right` because the source passes
`(right_dt, left_dt)` as `(start, end)`); then arithmetic; then strict
extraction. -/
def evaluateExpression (O : Oracles) (expr : String) (data : Json) : Except String Json :=
  let trimmed := trimStr expr
  if eqIgnoreAsciiCase trimmed (String.mk ['n', 'o', 'w', '(', ')']) then
    .ok (.num (nowQ O))
  else
    match timeDiffSplit trimmed.data with
    | some lr =>
      let leftS := trimStr (String.mk lr.1)
      let rightS := trimStr (String.mk lr.2)
      match resolveTimeOperand O leftS data, resolveTimeOperand O rightS data with
      | some leftDt, some rightDt =>
        .ok (.num (calculateTimeDifference rightDt leftDt))
      | _, _ => evalExprRest O trimmed data
    | none => evalExprRest O trimmed data

/-! ## Format specifiers (`format_value_with_spec`, lines 1049-1094) -/

/-- Zero-padded decimal rendering of a natural number to width `p`. -/
def natPad (n : ℕ) (p : ℕ) : String :=
  String.mk (List.replicate (p - (toString n).length) '0' ++ (toString n).data)

/-- Round half to even, the rounding of Rust's fixed-precision float
formatting, idealized to exact rationals. -/
def roundHalfEven (x : ℚ) : ℤ :=
  let f := ratFloor x
  let r := x - (f : ℚ)
  if r < 1 / 2 then f
  else if (1 : ℚ) / 2 < r then f + 1
  else if f % 2 = 0 then f else f + 1

/-- Rust `format!("{:.p$}", x)` on the exact-rational idealization:
magnitude rounded half-to-even at `p` decimals, sign of the value
preserved. -/
def fixedPoint (q : ℚ) (p : ℕ) : String :=
  let m := (roundHalfEven (|q| * (10 : ℚ) ^ p)).toNat
  (if q < 0 then String.mk ['-'] else String.mk []) ++ toString (m / 10 ^ p) ++
    (if p = 0 then String.mk [] else String.mk ['.'] ++ natPad (m % 10 ^ p) p)

/-- The default (last) branch of `format_value_with_spec` (lines
1088-1093): null→empty, string→itself, number/bool→`value_to_f64`
display, other→JSON serialization. -/
def formatValueDefault (O : Oracles) (value : Json) : Except String String :=
  match value with
  | .null => .ok (String.mk [])
  | .str s => .ok s
  | .num q =>
    match valueToF64 O (.num q) with
    | .ok x => .ok (f64Display x)
    | .error e => .error e
  | .bool b =>
    match valueToF64 O (.bool b) with
    | .ok x => .ok (f64Display x)
    | .error e => .error e
  | other => .ok (jsonToString other)

/-- `format_value_with_spec` (lines 1049-1094): duration tokens, `%`,
`d`, `.Nf`, `<body>%`, then default stringification. -/
def formatValueWithSpec (O : Oracles) (value : Json) (spec : String) :
    Except String String :=
  if isTimeFormat spec then
    match valueToF64 O value with
    | .ok diff => .ok (formatTimeDifference diff spec)
    | .error e => .error e
  else if spec = String.mk ['%'] then
    match valueToF64 O value with
    | .ok q => .ok (f64Display q ++ String.mk ['%'])
    | .error e => .error e
  else if spec = String.mk ['d'] then
    match valueToF64 O value with
    | .ok q => .ok (toString (f64ToI64 q))
    | .error e => .error e
  else if spec.data.head? = some '.' ∧ spec.data.getLast? = some 'f' then
    match strToNat? (String.mk ((spec.data.drop 1).dropLast)) with
    | some precision =>
      match valueToF64 O value with
      | .ok q => .ok (fixedPoint q precision)
      | .error e => .error e
    | none => .error ("Invalid precision")
  else if spec.data.getLast? = some '%' then
    let body := spec.data.dropLast
    match valueToF64 O value with
    | .error e => .error e
    | .ok q =>
      let numeric := q * 100
      if body = [] then .ok (f64Display numeric ++ String.mk ['%'])
      else if body.head? = some '.' ∧ body.getLast? = some 'f' then
        match strToNat? (String.mk ((body.drop 1).dropLast)) with
        | some precision => .ok (fixedPoint numeric precision ++ String.mk ['%'])
        | none => .error ("Invalid precision")
      else .error ("Unsupported format specifier: " ++ spec)
  else formatValueDefault O value

/-! ## Placeholder and template rendering (lines 628-682) -/

/-- The `default_output` closure of `render_placeholder` (lines 669-677):
used when no format spec is present. -/
def defaultOutput : Json → String
  | .null => String.mk []
  | .str s => s
  | .num n => serdeNumToString n
  | .bool b => cond b ("true") ("false")
  | other => jsonToString other

/-- `render_placeholder` (lines 662-682): split the span at the first
`:` into expression body and optional format spec, evaluate, then format
or default-stringify. -/
def renderPlaceholder (O : Oracles) (expr : String) (data : Json) :
    Except String String :=
  let pieces : String × Option String :=
    match expr.data.findIdx? (· = ':') with
    | some i => (String.mk (expr.data.take i), some (String.mk (expr.data.drop (i + 1))))
    | none => (expr, none)
  match evaluateExpression O (trimStr pieces.1) data with
  | .error e => .error e
  | .ok value =>
    match pieces.2 with
    | none => .ok (defaultOutput value)
    | some spec => formatValueWithSpec O value (trimStr spec)

/-- A character allowed inside a `{...}` placeholder span: the class
`[^{}]` of `PLACEHOLDER_PATTERN` (line 633). -/
def isSpanChar (c : Char) : Bool := !(c == '{') && !(c == '}')

/-- `render_template` (lines 628-660), scanning for leftmost
non-overlapping matches of `\{([^{}]+)\}`: a failing placeholder echoes
its literal text `{expr}` back into the output; everything between
matches is copied verbatim. -/
def renderTemplateGo (O : Oracles) (data : Json) : List Char → List Char
  | [] => []
  | c :: rest =>
    if c = '{' then
      let expr := rest.takeWhile isSpanChar
      let r2 := rest.dropWhile isSpanChar
      if expr ≠ [] ∧ r2.head? = some '}' then
        (match renderPlaceholder O (String.mk expr) data with
         | .ok s => s.data
         | .error _ => '{' :: expr ++ ['}']) ++ renderTemplateGo O data r2.tail
      else
        c :: renderTemplateGo O data rest
    else
      c :: renderTemplateGo O data rest
termination_by l => l.length
decreasing_by
  all_goals simp_wf
  all_goals try (have _h1 := (List.dropWhile_sublist (l := t) isSpanChar).length_le)
  all_goals try (have _h2 := (List.tail_sublist (t.dropWhile isSpanChar)).length_le)
  all_goals omega

/-- `render_template` on `String`s. -/
def renderTemplate (O : Oracles) (template : String) (data : Json) : String :=
  String.mk (renderTemplateGo O data template.data)

/-! ## Widget configuration (config/component_widgets.rs) -/

/-- `WidgetType`. -/
inductive WidgetType where
  | static
  | api
deriving DecidableEq

/-- `WidgetApiMethod`. -/
inductive WidgetApiMethod where
  | GET
  | POST
  | PUT
  | DELETE
deriving DecidableEq

/-- `WidgetFilterMode`. -/
inductive WidgetFilterMode where
  | equals
  | contains
  | pattern
deriving DecidableEq

/-- `WidgetDetectionConfig`. -/
structure WidgetDetectionConfig where
  env : Option String
  contains : Option String
  equals : Option String
  pattern : Option String

/-- `WidgetFilterConfig`. -/
structure WidgetFilterConfig where
  object : String
  mode : WidgetFilterMode
  keyword : Option String

/-- `WidgetApiConfig`. The `u64` timeout is modelled as `ℕ`. -/
structure WidgetApiConfig where
  base_url : Option String
  endpoint : Option String
  method : WidgetApiMethod
  timeout : ℕ
  headers : List (String × String)
  data_path : Option String

/-- `WidgetConfig`. The `u32` row/col positions are modelled as `ℕ`. -/
structure WidgetConfig where
  enabled : Bool
  force : Option Bool
  kind : WidgetType
  row : ℕ
  col : ℕ
  nerd_icon : String
  emoji_icon : String
  text_icon : String
  content : Option String
  template : Option String
  api : Option WidgetApiConfig
  detection : Option WidgetDetectionConfig
  filter : Option WidgetFilterConfig

/-- The terminal capability flags consulted by icon selection
(`TerminalCapabilities`; the color-support field is never read by this
engine and is omitted). -/
structure TerminalCapabilities where
  supportsNerdFont : Bool
  supportsEmoji : Bool

/-- `MultilineConfig` (config/schema.rs): the `rows` table only affects
the grid's line serialization, which no claim touches, and is omitted. -/
structure MultilineConfig where
  enabled : Bool
  maxRows : ℕ

/-- The slice of the global `Config` that the engine reads:
the multiline section, the per-component `enabled` flags consulted by
`is_component_enabled` (lines 170-180, with its `_ => true` default
folded into the function), the `terminal.force_*` flags and the
`style.enable_*` toggles (`AutoDetect` is `none` for `"auto"`). -/
structure EngineConfig where
  multiline : Option MultilineConfig
  componentEnabled : String → Bool
  forceText : Bool
  forceNerdFont : Bool
  forceEmoji : Bool
  enableNerdFont : Option Bool
  enableEmoji : Option Bool

/-- `AutoDetect::is_enabled` (schema.rs lines 179-184). -/
def autoDetectIsEnabled (flag : Option Bool) (detected : Bool) : Bool :=
  match flag with
  | some value => value
  | none => detected

/-! ## Widget gating (lines 282-326) -/

/-- `should_render_widget` (lines 282-288): `force` overrides `enabled`. -/
def shouldRenderWidget (widget : WidgetConfig) : Bool :=
  match widget.force with
  | some true => true
  | some false => false
  | none => widget.enabled

/-- `check_detection` (lines 290-326): no rule or no env name passes; an
absent variable fails; `equals`, `contains` and `pattern` must each pass
when present; a pattern that fails to compile fails the gate. -/
def checkDetection (O : Oracles) (widget : WidgetConfig) : Bool :=
  match widget.detection with
  | none => true
  | some detection =>
    match detection.env with
    | none => true
    | some envName =>
      match O.env envName with
      | none => false
      | some value =>
        let eqOk := match detection.equals with
          | some expected => value == expected
          | none => true
        let containsOk := match detection.contains with
          | some needle => strContains value needle
          | none => true
        let patternOk := match detection.pattern with
          | some pat =>
            match O.regex pat with
            | some matcher => matcher value
            | none => false
          | none => true
        eqOk && containsOk && patternOk

/-! ## Icon selection and static widgets (lines 328-332, 451-463, 578-601) -/

/-- `select_widget_icon` (lines 578-601). -/
def selectWidgetIcon (cfg : EngineConfig) (terminal : TerminalCapabilities)
    (widget : WidgetConfig) : String :=
  if cfg.forceText then widget.text_icon
  else if cfg.forceNerdFont then widget.nerd_icon
  else if cfg.forceEmoji then widget.emoji_icon
  else if terminal.supportsNerdFont && autoDetectIsEnabled cfg.enableNerdFont true then
    widget.nerd_icon
  else if terminal.supportsEmoji && autoDetectIsEnabled cfg.enableEmoji true then
    widget.emoji_icon
  else widget.text_icon

/-- `compose_with_icon` (lines 451-463). -/
def composeWithIcon (cfg : EngineConfig) (terminal : TerminalCapabilities)
    (widget : WidgetConfig) (content : String) : String :=
  let icon := selectWidgetIcon cfg terminal widget
  if icon = String.mk [] then content else icon ++ String.mk [' '] ++ content

/-- `render_static_widget` (lines 328-332). -/
def renderStaticWidget (O : Oracles) (cfg : EngineConfig)
    (terminal : TerminalCapabilities) (widget : WidgetConfig) : String :=
  composeWithIcon cfg terminal widget
    (substituteEnv O.env (widget.content.getD (String.mk [])))

/-! ## Filtering (lines 444-513) -/

/-- `json_value_as_string` (lines 505-513). -/
def jsonValueAsString : Json → String
  | .null => String.mk []
  | .str s => s
  | .num n => serdeNumToString n
  | .bool b => cond b ("true") ("false")
  | other => jsonToString other

/-- `value_matches_filter` (lines 466-503): no keyword passes; a
JSONPath error or an empty match set fails; then any selected value must
satisfy the mode against the keyword; a malformed pattern regex fails. -/
def valueMatchesFilter (O : Oracles) (filter : WidgetFilterConfig) (data : Json) : Bool :=
  match filter.keyword with
  | none => true
  | some keyword =>
    match O.jsonPath data filter.object with
    | .error _ => false
    | .ok found =>
      if found.isEmpty then false
      else
        match filter.mode with
        | .equals => found.any (fun v => jsonValueAsString v == keyword)
        | .contains => found.any (fun v => strContains (jsonValueAsString v) keyword)
        | .pattern =>
          match O.regex keyword with
          | some matcher => found.any (fun v => matcher (jsonValueAsString v))
          | none => false

/-- `passes_filter` (lines 444-449). -/
def passesFilter (O : Oracles) (widget : WidgetConfig) (data : Json) : Bool :=
  match widget.filter with
  | none => true
  | some filter => valueMatchesFilter O filter data

/-! ## API widgets (lines 334-442) -/

/-- `ApiData` (lines 515-518). -/
structure ApiData where
  root : Json
  selected : Json

/-- `fetch_api_data` (lines 364-442): resolve the URL (absolute endpoint
as-is, otherwise a required base URL stripped of trailing slashes),
substitute environment variables in endpoint, base and header values,
issue the request through the `http` oracle, then select the
`data_path` JSONPath match if configured (no match is an error). -/
def fetchApiData (O : Oracles) (config : WidgetApiConfig) : Except String ApiData :=
  match config.endpoint with
  | none => .error ("API widget missing endpoint")
  | some ep =>
    let endpoint := substituteEnv O.env ep
    let urlE : Except String String :=
      if strStarts endpoint ("http://") || strStarts endpoint ("https://") then
        .ok endpoint
      else
        match config.base_url with
        | some base => .ok (trimEndSlashes (substituteEnv O.env base) ++ endpoint)
        | none => .error ("API widget missing base_url for relative endpoint")
    match urlE with
    | .error e => .error e
    | .ok url =>
      let methodStr : String :=
        match config.method with
        | .GET => "GET"
        | .POST => "POST"
        | .PUT => "PUT"
        | .DELETE => "DELETE"
      let headers :=
        config.headers.map (fun kv => (kv.1, substituteEnv O.env kv.2)) ++
          [(String.mk ("User-Agent").data, String.mk ("claude-code-statusline/3.0").data)]
      match O.http methodStr url headers config.timeout with
      | .error e => .error e
      | .ok json =>
        match config.data_path with
        | some path =>
          match O.jsonPath json path with
          | .error e => .error e
          | .ok found =>
            match found.head? with
            | some value => .ok ⟨json, value⟩
            | none => .error ("JSONPath yielded no results: " ++ path)
        | none => .ok ⟨json, json⟩

/-- `render_api_widget` (lines 334-362): no API descriptor resolves to
no content; a failed fetch is an error; a failed filter resolves to no
content; otherwise template-render (or stringify) the selected value and
compose with the icon. -/
def renderApiWidget (O : Oracles) (cfg : EngineConfig)
    (terminal : TerminalCapabilities) (widget : WidgetConfig) :
    Except String (Option String) :=
  match widget.api with
  | none => .ok none
  | some apiConfig =>
    match fetchApiData O apiConfig with
    | .error e => .error e
    | .ok apiData =>
      if !passesFilter O widget apiData.root then .ok none
      else
        let renderedText :=
          match widget.template with
          | some tpl => renderTemplate O (substituteEnv O.env tpl) apiData.selected
          | none => jsonToString apiData.selected
        .ok (some (composeWithIcon cfg terminal widget renderedText))

/-! ## The grid, the widget cache and the render cycle (lines 101-280,
520-568) -/

/-- The grid cell table (`MultiLineGrid.rows`), modelled as a partial map
from (row, column) to rendered text. The ordered line serialization
(`MultiLineGrid::render`) affects only the `lines` output, which no claim
touches, and is not modelled. -/
def Grid := ℕ → ℕ → Option String

/-- The grid after `clear()`. -/
def emptyGrid : Grid := fun _ _ => none

/-- `MultiLineGrid::set_cell` (lines 530-532): overwrite semantics. -/
def setCell (g : Grid) (row col : ℕ) (content : String) : Grid :=
  fun r c => if r = row ∧ c = col then some content else g r c

/-- The widget cache (`widget_cache : HashMap<String, String>`). -/
def CacheMap := String → Option String

/-- `HashMap::insert`. -/
def cacheInsert (m : CacheMap) (key value : String) : CacheMap :=
  fun k => if k = key then some value else m k

/-- The renderer state that persists across one render cycle: the grid
being built and the process-lifetime widget cache. -/
structure CycleState where
  grid : Grid
  cache : CacheMap

/-- The body of the `for (widget_name, widget_config)` loop of
`render_component_widgets` (lines 230-277): gate by `should_render_widget`
and `check_detection`, skip rows outside `[1, max_rows]`, resolve the
widget (static always yields text; an API error is logged and resolves to
no content), then either write the cell and update the cache, or fall
back to the cached text if some exists. -/
def widgetStep (O : Oracles) (cfg : EngineConfig) (terminal : TerminalCapabilities)
    (mlc : MultilineConfig) (componentName : String) (st : CycleState)
    (entry : String × WidgetConfig) : CycleState :=
  let widget := entry.2
  if !shouldRenderWidget widget then st
  else if !checkDetection O widget then st
  else if widget.row = 0 ∨ mlc.maxRows < widget.row then st
  else
    let cacheKey := componentName ++ String.mk [':', ':'] ++ entry.1
    let widgetOutput : Option String :=
      match widget.kind with
      | .static => some (renderStaticWidget O cfg terminal widget)
      | .api =>
        match renderApiWidget O cfg terminal widget with
        | .ok value => value
        | .error _ => none
    match widgetOutput with
    | some finalText =>
      { grid := setCell st.grid widget.row widget.col finalText,
        cache := cacheInsert st.cache cacheKey finalText }
    | none =>
      match st.cache cacheKey with
      | some previous => { st with grid := setCell st.grid widget.row widget.col previous }
      | none => st

/-- `render_component_widgets` (lines 223-280). The source's `Result`
return is always `Ok(())` — no arm of the loop produces an error — so the
model returns the updated state directly. -/
def renderComponentWidgets (O : Oracles) (cfg : EngineConfig)
    (terminal : TerminalCapabilities) (mlc : MultilineConfig)
    (componentName : String) (widgets : List (String × WidgetConfig))
    (st : CycleState) : CycleState :=
  widgets.foldl (widgetStep O cfg terminal mlc componentName) st

/-- One entry of the component iteration: the component name from
`config.components.order` paired with the outcome of
`load_component_config` (an async filesystem read, supplied as data:
`Ok None` = no descriptor file, `Err` = unreadable or malformed file). -/
def ComponentEntry :=
  String × Except String (Option (List (String × WidgetConfig)))

/-- The outcome fields of `MultiLineRenderResult` that the claims
mention. The `lines` field (the grid's ordered serialization) is not
modelled; the grid itself is returned in the cycle state. -/
structure MLResult where
  success : Bool
  error : Option String

/-- The component loop of `render_extension_lines` (lines 126-160):
disabled components and missing descriptors are skipped; a failed
descriptor load aborts the whole render with `success = false`; a loaded
component's widgets are rendered into the state. -/
def renderExtensionGo (O : Oracles) (cfg : EngineConfig)
    (terminal : TerminalCapabilities) (mlc : MultilineConfig) :
    List ComponentEntry → CycleState → MLResult × CycleState
  | [], st => ({ success := true, error := none }, st)
  | entry :: rest, st =>
    if !cfg.componentEnabled entry.1 then
      renderExtensionGo O cfg terminal mlc rest st
    else
      match entry.2 with
      | .ok none => renderExtensionGo O cfg terminal mlc rest st
      | .error err => ({ success := false, error := some err }, st)
      | .ok (some widgets) =>
        renderExtensionGo O cfg terminal mlc rest
          (renderComponentWidgets O cfg terminal mlc entry.1 widgets st)

/-- `render_extension_lines` (lines 101-168): a missing or disabled
multiline section succeeds with no work (the grid is not even cleared);
otherwise clear the grid and run the component loop. -/
def renderExtensionLines (O : Oracles) (cfg : EngineConfig)
    (terminal : TerminalCapabilities) (components : List ComponentEntry)
    (st : CycleState) : MLResult × CycleState :=
  match cfg.multiline with
  | some mlc =>
    if mlc.enabled then
      renderExtensionGo O cfg terminal mlc components { st with grid := emptyGrid }
    else ({ success := true, error := none }, st)
  | none => ({ success := true, error := none }, st)

/-! ## Concrete instances used by witnesses and counterexamples -/

/-- Oracles for an environment with no variables set, no reachable
network, and no compilable patterns. -/
def trivialOracles : Oracles where
  env := fun _ => none
  regex := fun _ => none
  jsonStr := fun _ => none
  dateText := fun _ => none
  jsonPath := fun _ _ => .error ("unavailable")
  http := fun _ _ _ _ => .error ("connection refused")
  nowMillis := 0
  tsValid := fun _ => true

/-- Oracles that differ from `trivialOracles` by one set environment
variable, `TEST_VAR=test_value` (the configuration of the source's own
`test_substitute_env_with_escaped_dollar` test). -/
def testEnvOracles : Oracles :=
  { trivialOracles with
    env := fun n => if n = "TEST_VAR" then some ("test_value") else none }

/-- Oracles with one lowercase-named environment variable set. -/
def lowercaseEnvOracles : Oracles :=
  { trivialOracles with
    env := fun n => if n = "path" then some ("surprise") else none }

/-- A terminal with no special capabilities. -/
def sampleTerminal : TerminalCapabilities := ⟨false, false⟩

/-- An enabled multiline section with five rows. -/
def sampleMultiline : MultilineConfig := ⟨true, 5⟩

/-- An engine configuration with multiline enabled, every component
enabled, and no forced icon tiers. -/
def sampleEngineConfig : EngineConfig where
  multiline := some sampleMultiline
  componentEnabled := fun _ => true
  forceText := false
  forceNerdFont := false
  forceEmoji := false
  enableNerdFont := none
  enableEmoji := none

/-- A fresh renderer state: empty grid, empty widget cache. -/
def initState : CycleState := ⟨emptyGrid, fun _ => none⟩

/-- An API widget at row 1, column 0, pointing at an absolute URL, with
no icons, template, detection or filter. -/
def sampleApiWidget : WidgetConfig where
  enabled := true
  force := none
  kind := .api
  row := 1
  col := 0
  nerd_icon := ""
  emoji_icon := ""
  text_icon := ""
  content := none
  template := none
  api := some { base_url := none, endpoint := some ("http://x"), method := .GET,
                timeout := 5000, headers := [], data_path := none }
  detection := none
  filter := none

/-- An enabled static widget at row 1, column 0 with content `Hello`. -/
def sampleStaticWidget : WidgetConfig :=
  { sampleApiWidget with
    kind := .static
    api := none
    content := some ("Hello") }

/-- A static widget that is forced off (`force = false`). -/
def forcedOffWidget : WidgetConfig :=
  { sampleApiWidget with
    kind := .static
    force := some false
    content := some ("Hello") }

/-- A renderer state whose cache holds a previous value for the widget
identity `usage::sample`. -/
def cachedState : CycleState :=
  ⟨emptyGrid, fun k => if k = "usage::sample" then some ("cached") else none⟩

/-- The sample JSON datum `{"quota": 500000.0, "x": 5}`. -/
def sampleData : Json := .obj [("quota", .num 500000), ("x", .num 5)]

deriving instance DecidableEq for Except

/-! # Theorems -/

/-- C5: a widget that fails the participation gate — `force = false`, or
`enabled = false` without `force = true`, or a detection rule whose
environment variable is absent or whose `equals`/`contains`/`pattern`
condition fails (including a pattern that does not compile) — leaves the
render-cycle state exactly as it was: its grid cell is not written, no
cache fallback is applied, and the cache entry is untouched. -/
theorem gate_failure_skips_widget_entirely
    (O : Oracles) (cfg : EngineConfig) (terminal : TerminalCapabilities)
    (mlc : MultilineConfig) (componentName widgetName : String)
    (st : CycleState) (w : WidgetConfig)
    (h : w.force = some false
       ∨ (w.force = none ∧ w.enabled = false)
       ∨ ∃ d, w.detection = some d ∧ ∃ n, d.env = some n ∧
           (O.env n = none
            ∨ ∃ v, O.env n = some v ∧
                ((∃ e, d.equals = some e ∧ v ≠ e)
                 ∨ (∃ c, d.contains = some c ∧ strContains v c = false)
                 ∨ (∃ p, d.pattern = some p ∧
                      (O.regex p = none ∨ ∃ f, O.regex p = some f ∧ f v = false))))) :
    widgetStep O cfg terminal mlc componentName st (widgetName, w) = st := by
  rcases h with hf | ⟨hfn, hen⟩ | ⟨d, hd, n, hn, hrest⟩
  · unfold widgetStep
    simp [shouldRenderWidget, hf]
  · unfold widgetStep
    simp [shouldRenderWidget, hfn, hen]
  · by_cases hsr : shouldRenderWidget w
    · have hcd : checkDetection O w = false := by
        rcases hrest with hnone | ⟨v, hv, hfail⟩
        · simp [checkDetection, hd, hn, hnone]
        · rcases hfail with ⟨e, he, hne⟩ | ⟨c, hc, hcf⟩ | ⟨p, hp, hpf⟩
          · simp [checkDetection, hd, hn, hv, he, hne]
          · simp [checkDetection, hd, hn, hv, hc, hcf]
          · rcases hpf with hpn | ⟨f, hf, hfv⟩
            · simp [checkDetection, hd, hn, hv, hp, hpn]
            · simp [checkDetection, hd, hn, hv, hp, hf, hfv]
      unfold widgetStep
      simp [hsr, hcd]
    · unfold widgetStep
      simp [hsr]

/-- Witness for C5 at a concrete input: a `force = false` widget leaves
the fresh state untouched. -/
theorem gate_failure_skips_widget_entirely_witness :
    forcedOffWidget.force = some false ∧
      widgetStep trivialOracles sampleEngineConfig sampleTerminal sampleMultiline
        ("usage") initState (("sample"), forcedOffWidget) = initState :=
  ⟨rfl,
    gate_failure_skips_widget_entirely trivialOracles sampleEngineConfig
      sampleTerminal sampleMultiline ("usage") ("sample") initState
      forcedOffWidget (Or.inl rfl)⟩

/-- C1: when an API widget's render fails (unreachable endpoint, timeout,
non-2xx, non-JSON body — all surfacing as an `Err` from
`render_api_widget`), (a) the per-widget step leaves the cache unchanged,
leaves the grid unchanged (the cell stays unset) when the cache holds no
entry for the widget identity, and writes the cached text into the
widget's cell when an entry exists; and (b) `render_extension_lines`
still reports `success = true` whenever every component descriptor
loads. -/
theorem api_failure_uses_cache_and_render_succeeds :
    (∀ (O : Oracles) (cfg : EngineConfig) (terminal : TerminalCapabilities)
       (mlc : MultilineConfig) (componentName widgetName : String)
       (st : CycleState) (w : WidgetConfig) (msg : String),
      w.kind = .api →
      renderApiWidget O cfg terminal w = .error msg →
      shouldRenderWidget w = true →
      checkDetection O w = true →
      1 ≤ w.row → w.row ≤ mlc.maxRows →
      (widgetStep O cfg terminal mlc componentName st (widgetName, w)).cache
          = st.cache ∧
      (st.cache (componentName ++ String.mk [':', ':'] ++ widgetName) = none →
        widgetStep O cfg terminal mlc componentName st (widgetName, w) = st) ∧
      (∀ prev,
        st.cache (componentName ++ String.mk [':', ':'] ++ widgetName) = some prev →
        (widgetStep O cfg terminal mlc componentName st (widgetName, w)).grid
            w.row w.col = some prev))
    ∧
    (∀ (O : Oracles) (cfg : EngineConfig) (terminal : TerminalCapabilities)
       (components : List ComponentEntry) (st : CycleState),
      (∀ e ∈ components, ∀ err, e.2 ≠ .error err) →
      (renderExtensionLines O cfg terminal components st).1.success = true) := by
  constructor
  · intro O cfg terminal mlc componentName widgetName st w msg hkind happi hsr hcd hr1 hr2
    have hrow : ¬(w.row = 0 ∨ mlc.maxRows < w.row) := by omega
    refine ⟨?_, ?_, ?_⟩
    · unfold widgetStep
      simp only [hsr, hcd, Bool.not_true, Bool.false_eq_true, if_false, if_true,
        hrow, hkind, happi]
      cases hc : st.cache (componentName ++ String.mk [':', ':'] ++ widgetName) <;> simp [hc]
    · intro hnone
      unfold widgetStep
      simp [hsr, hcd, hrow, hkind, happi, hnone]
    · intro prev hprev
      unfold widgetStep
      simp [hsr, hcd, hrow, hkind, happi, hprev, setCell]
  · intro O cfg terminal components st hloads
    unfold renderExtensionLines
    cases hm : cfg.multiline with
    | none => rfl
    | some mlc =>
      by_cases hen : mlc.enabled
      · simp only [hen, if_true]
        generalize { st with grid := emptyGrid } = st0
        induction components generalizing st0 with
        | nil => rfl
        | cons e rest ih =>
          have he := hloads e (List.mem_cons_self e rest)
          have hrest : ∀ x ∈ rest, ∀ err, x.2 ≠ .error err := by
            intro x hx
            exact hloads x (List.mem_cons_of_mem e hx)
          unfold renderExtensionGo
          by_cases hce : cfg.componentEnabled e.1
          · simp only [hce, Bool.not_true, Bool.false_eq_true, if_false]
            cases hload : e.2 with
            | error err => exact absurd hload (he err)
            | ok widgetsOpt =>
              cases widgetsOpt with
              | none => exact ih hrest _
              | some widgets => exact ih hrest _
          · simp only [hce]
            simp only [Bool.not_false, if_true]
            exact ih hrest _
      · simp [hen]

/-- Witness for C1 at a concrete input: with no reachable network, the
sample API widget's request fails; against a state whose cache holds
`usage::sample ↦ "cached"` the cell receives the cached text, against a
fresh state the step is a no-op, and the whole render still succeeds. -/
theorem api_failure_uses_cache_and_render_succeeds_witness :
    (widgetStep trivialOracles sampleEngineConfig sampleTerminal sampleMultiline
        ("usage") cachedState (("sample"), sampleApiWidget)).grid 1 0
        = some ("cached") ∧
    widgetStep trivialOracles sampleEngineConfig sampleTerminal sampleMultiline
        ("usage") initState (("sample"), sampleApiWidget) = initState ∧
    (renderExtensionLines trivialOracles sampleEngineConfig sampleTerminal
        [(("usage"), .ok (some [(("sample"), sampleApiWidget)]))] initState).1.success
        = true := by
  have happi : renderApiWidget trivialOracles sampleEngineConfig sampleTerminal
      sampleApiWidget = .error ("connection refused") := by
    simp +decide [renderApiWidget, sampleApiWidget, fetchApiData, substituteEnv,
      replaceEscapedDollar, substEnvVars, restoreDollar, strStarts,
      trivialOracles]
  refine ⟨?_, ?_, ?_⟩
  · exact (api_failure_uses_cache_and_render_succeeds.1 trivialOracles
      sampleEngineConfig sampleTerminal sampleMultiline ("usage") ("sample")
      cachedState sampleApiWidget ("connection refused") rfl happi rfl rfl
      (by decide) (by decide)).2.2 ("cached") rfl
  · exact (api_failure_uses_cache_and_render_succeeds.1 trivialOracles
      sampleEngineConfig sampleTerminal sampleMultiline ("usage") ("sample")
      initState sampleApiWidget ("connection refused") rfl happi rfl rfl
      (by decide) (by decide)).2.1 rfl
  · exact api_failure_uses_cache_and_render_succeeds.2 trivialOracles
      sampleEngineConfig sampleTerminal
      [(("usage"), .ok (some [(("sample"), sampleApiWidget)]))] initState
      (by intro e he err; simp at he; simp [he])

/-- Helper: one widget step either leaves the grid alone or writes a
single cell whose row passed the `[1, max_rows]` guard. -/
theorem widgetStep_grid_cases (O : Oracles) (cfg : EngineConfig)
    (terminal : TerminalCapabilities) (mlc : MultilineConfig)
    (componentName : String) (st : CycleState) (e : String × WidgetConfig) :
    (widgetStep O cfg terminal mlc componentName st e).grid = st.grid ∨
    ∃ txt, (widgetStep O cfg terminal mlc componentName st e).grid
        = setCell st.grid e.2.row e.2.col txt ∧
      1 ≤ e.2.row ∧ e.2.row ≤ mlc.maxRows := by
  unfold widgetStep
  dsimp only
  split
  · exact Or.inl rfl
  · split
    · exact Or.inl rfl
    · split
      · exact Or.inl rfl
      · rename_i hrow
        split
        · rename_i txt _
          exact Or.inr ⟨txt, rfl, by omega⟩
        · split
          · rename_i prev _
            exact Or.inr ⟨prev, rfl, by omega⟩
          · exact Or.inl rfl

/-- Helper: the widget fold of one component preserves the row-bounds
invariant of the grid. -/
theorem renderComponentWidgets_row_bound (O : Oracles) (cfg : EngineConfig)
    (terminal : TerminalCapabilities) (mlc : MultilineConfig)
    (componentName : String) :
    ∀ (widgets : List (String × WidgetConfig)) (st : CycleState),
      (∀ r c, st.grid r c ≠ none → 1 ≤ r ∧ r ≤ mlc.maxRows) →
      ∀ r c,
        (renderComponentWidgets O cfg terminal mlc componentName widgets st).grid r c ≠ none →
        1 ≤ r ∧ r ≤ mlc.maxRows := by
  intro widgets
  induction widgets with
  | nil => intro st hst r c hcell; exact hst r c hcell
  | cons e rest ih =>
    intro st hst r c hcell
    refine ih (widgetStep O cfg terminal mlc componentName st e) ?_ r c hcell
    intro r' c' hcell'
    rcases widgetStep_grid_cases O cfg terminal mlc componentName st e with
      hsame | ⟨txt, hset, hlo, hhi⟩
    · exact hst r' c' (hsame ▸ hcell')
    · rw [hset] at hcell'
      unfold setCell at hcell'
      by_cases hrc : r' = e.2.row ∧ c' = e.2.col
      · exact hrc.1 ▸ ⟨hlo, hhi⟩
      · exact hst r' c' (by simpa [hrc] using hcell')

/-- Helper: the component loop preserves the row-bounds invariant. -/
theorem renderExtensionGo_row_bound (O : Oracles) (cfg : EngineConfig)
    (terminal : TerminalCapabilities) (mlc : MultilineConfig) :
    ∀ (components : List ComponentEntry) (st : CycleState),
      (∀ r c, st.grid r c ≠ none → 1 ≤ r ∧ r ≤ mlc.maxRows) →
      ∀ r c,
        (renderExtensionGo O cfg terminal mlc components st).2.grid r c ≠ none →
        1 ≤ r ∧ r ≤ mlc.maxRows := by
  intro components
  induction components with
  | nil => intro st hst r c hcell; exact hst r c hcell
  | cons e rest ih =>
    intro st hst r c hcell
    unfold renderExtensionGo at hcell
    by_cases hce : cfg.componentEnabled e.1
    · simp only [hce, Bool.not_true, Bool.false_eq_true, if_false] at hcell
      cases hload : e.2 with
      | error err =>
        rw [hload] at hcell
        exact hst r c hcell
      | ok widgetsOpt =>
        rw [hload] at hcell
        cases widgetsOpt with
        | none => exact ih st hst r c hcell
        | some widgets =>
          exact ih _ (renderComponentWidgets_row_bound O cfg terminal mlc e.1
            widgets st hst) r c hcell
    · simp only [hce, Bool.not_false, if_true] at hcell
      exact ih st hst r c hcell

/-- C6: in the grid built by a render cycle with maximum row count
`max_rows`, every populated cell lies in a row `r` with
`1 ≤ r ≤ max_rows`; a widget whose configured row is `0` or greater than
`max_rows` never causes a cell write. -/
theorem populated_rows_within_bounds
    (O : Oracles) (cfg : EngineConfig) (terminal : TerminalCapabilities)
    (mlc : MultilineConfig) (components : List ComponentEntry) (st : CycleState)
    (hm : cfg.multiline = some mlc) (hen : mlc.enabled = true) (r c : ℕ)
    (hcell : (renderExtensionLines O cfg terminal components st).2.grid r c ≠ none) :
    1 ≤ r ∧ r ≤ mlc.maxRows := by
  unfold renderExtensionLines at hcell
  rw [hm] at hcell
  simp only [hen, if_true] at hcell
  refine renderExtensionGo_row_bound O cfg terminal mlc components _ ?_ r c hcell
  intro r' c' hcell'
  exact absurd rfl hcell'

/-- Witness for C6 at a concrete input: the sample static widget
populates cell (1, 0), and row 1 is within `[1, 5]`. -/
theorem populated_rows_within_bounds_witness :
    (renderExtensionLines trivialOracles sampleEngineConfig sampleTerminal
        [(("usage"), .ok (some [(("sample"), sampleStaticWidget)]))]
        initState).2.grid 1 0 ≠ none ∧
      1 ≤ 1 ∧ 1 ≤ sampleMultiline.maxRows := by
  have hcell : (renderExtensionLines trivialOracles sampleEngineConfig sampleTerminal
      [(("usage"), .ok (some [(("sample"), sampleStaticWidget)]))]
      initState).2.grid 1 0 ≠ none := by
    simp +decide [renderExtensionLines, renderExtensionGo, renderComponentWidgets,
      widgetStep, sampleEngineConfig, sampleMultiline, sampleStaticWidget,
      sampleApiWidget, shouldRenderWidget, checkDetection, renderStaticWidget,
      composeWithIcon, selectWidgetIcon, substituteEnv, replaceEscapedDollar,
      substEnvVars, restoreDollar, trivialOracles, setCell, initState, emptyGrid]
  exact ⟨hcell,
    populated_rows_within_bounds trivialOracles sampleEngineConfig sampleTerminal
      sampleMultiline [(("usage"), .ok (some [(("sample"), sampleStaticWidget)]))]
      initState rfl rfl 1 0 hcell⟩

/-! ### Bridging lemmas between the executable rational helpers and
Mathlib's floor/ceil -/

/-- `ratFloor` is `Int.floor`. -/
theorem ratFloor_eq (q : ℚ) : ratFloor q = ⌊q⌋ := by
  unfold ratFloor
  exact Rat.floor_def.symm

/-- `ratCeil` is `Int.ceil`. -/
theorem ratCeil_eq (q : ℚ) : ratCeil q = ⌈q⌉ := by
  unfold ratCeil
  rw [ratFloor_eq, Int.floor_neg, neg_neg]

/-- `ratTrunc` on an integer is the integer. -/
theorem ratTrunc_intCast (n : ℤ) : ratTrunc (n : ℚ) = n := by
  unfold ratTrunc
  split
  · rw [ratFloor_eq, Int.floor_intCast]
  · rw [ratCeil_eq, Int.ceil_intCast]

/-- `formatNumber` on an integer value prints the integer. -/
theorem formatNumber_intCast (n : ℤ) : formatNumber (n : ℚ) = toString n := by
  unfold formatNumber fractQ truncQ f64ToI64
  rw [ratTrunc_intCast]
  simp

/-- `formatNumber` of `sign * (n : ℚ)` prints `sign * n` computed in `ℤ`. -/
theorem formatNumber_sign_mul (v : ℚ) (n : ℤ) :
    formatNumber ((if v < 0 then (-1 : ℚ) else 1) * (n : ℚ))
      = toString ((if v < 0 then (-1 : ℤ) else 1) * n) := by
  by_cases hv : v < 0
  · simp only [hv, if_true]
    rw [show ((-1 : ℚ) * (n : ℚ)) = ((-1 * n : ℤ) : ℚ) by push_cast; ring]
    exact formatNumber_intCast _
  · simp only [hv, if_false]
    rw [show ((1 : ℚ) * (n : ℚ)) = ((1 * n : ℤ) : ℚ) by push_cast; ring]
    exact formatNumber_intCast _

/-- C2 counterexample: one millisecond formatted with the `Y` token
renders `0` (the code floors years), while the claimed
`sign × ceil(|v| / unit)` rendering would be `1`. -/
theorem single_unit_ceiling_counterexample :
    formatTimeDifference 1 (String.mk ['Y']) = "0" ∧
      specSingleUnitRender 1 YEAR_MS = "1" ∧
      formatTimeDifference 1 (String.mk ['Y']) ≠ specSingleUnitRender 1 YEAR_MS := by
  have h1 : formatTimeDifference 1 (String.mk ['Y']) = "0" := by
    have hfloor : ratFloor (YEAR_MS⁻¹) = 0 := by
      rw [ratFloor_eq, YEAR_MS, DAY_MS, HOUR_MS, MINUTE_MS, SECOND_MS,
        Int.floor_eq_zero_iff, Set.mem_Ico]
      constructor <;> norm_num
    simp +decide [formatTimeDifference, floorQ, hfloor]
    rw [show (0 : ℚ) = ((0 : ℤ) : ℚ) by norm_num, formatNumber_intCast]
    decide
  have h2 : specSingleUnitRender 1 YEAR_MS = "1" := by
    have hceil : ratCeil (YEAR_MS⁻¹) = 1 := by
      rw [ratCeil_eq, YEAR_MS, DAY_MS, HOUR_MS, MINUTE_MS, SECOND_MS,
        Int.ceil_eq_iff]
      constructor <;> norm_num
    simp +decide [specSingleUnitRender, hceil]
  refine ⟨h1, h2, ?_⟩
  rw [h1, h2]
  decide

/-- C2 amended: single-unit duration tokens render a signed integer, but
only `D`/`days`, `H`/`hours`, `m`/`minutes` and `S`/`seconds` round the
magnitude up (ceiling); `Y`/`years` and `M`/`months` round it down
(floor). -/
theorem single_unit_token_rendering (v : ℚ) :
    formatTimeDifference v (String.mk ['D']) = specSingleUnitRender v DAY_MS ∧
    formatTimeDifference v (String.mk ['d', 'a', 'y', 's']) = specSingleUnitRender v DAY_MS ∧
    formatTimeDifference v (String.mk ['H']) = specSingleUnitRender v HOUR_MS ∧
    formatTimeDifference v (String.mk ['h', 'o', 'u', 'r', 's']) = specSingleUnitRender v HOUR_MS ∧
    formatTimeDifference v (String.mk ['m']) = specSingleUnitRender v MINUTE_MS ∧
    formatTimeDifference v (String.mk ['m', 'i', 'n', 'u', 't', 'e', 's']) = specSingleUnitRender v MINUTE_MS ∧
    formatTimeDifference v (String.mk ['S']) = specSingleUnitRender v SECOND_MS ∧
    formatTimeDifference v (String.mk ['s', 'e', 'c', 'o', 'n', 'd', 's']) = specSingleUnitRender v SECOND_MS ∧
    formatTimeDifference v (String.mk ['Y']) = specSingleUnitFloorRender v YEAR_MS ∧
    formatTimeDifference v (String.mk ['y', 'e', 'a', 'r', 's']) = specSingleUnitFloorRender v YEAR_MS ∧
    formatTimeDifference v (String.mk ['M']) = specSingleUnitFloorRender v MONTH_MS ∧
    formatTimeDifference v (String.mk ['m', 'o', 'n', 't', 'h', 's']) = specSingleUnitFloorRender v MONTH_MS := by
  refine ⟨?_, ?_, ?_, ?_, ?_, ?_, ?_, ?_, ?_, ?_, ?_, ?_⟩ <;>
    simp +decide only [formatTimeDifference, specSingleUnitRender,
      specSingleUnitFloorRender, floorQ, ceilQ] <;>
    exact formatNumber_sign_mul v _

/-! ### The `%` remainder algebra used by the multi-unit tokens (C3) -/

/-- On a nonnegative dividend, the `f64` remainder is the floor-based
remainder. -/
theorem fmodQ_eq_sub_mul_floor (a b : ℚ) (ha : 0 ≤ a) (hb : 0 < b) :
    fmodQ a b = a - b * (⌊a / b⌋ : ℚ) := by
  unfold fmodQ truncQ ratTrunc
  rw [if_pos (div_nonneg ha hb.le), ratFloor_eq]

/-- The floor-based remainder of a nonnegative dividend is nonnegative. -/
theorem fmodQ_nonneg (a b : ℚ) (ha : 0 ≤ a) (hb : 0 < b) : 0 ≤ fmodQ a b := by
  rw [fmodQ_eq_sub_mul_floor a b ha hb]
  have hfr : a - b * (⌊a / b⌋ : ℚ) = b * Int.fract (a / b) := by
    rw [Int.fract]
    field_simp
  rw [hfr]
  exact mul_nonneg hb.le (Int.fract_nonneg _)

/-- Taking the remainder by `k * H` and then by `H` equals taking it by
`H` directly (for a nonnegative dividend): the reason `x % DAY % HOUR`
equals `x % HOUR` in the source's decomposition. -/
theorem fmodQ_collapse (a H : ℚ) (k : ℕ) (ha : 0 ≤ a) (hH : 0 < H) (hk : 0 < k) :
    fmodQ (fmodQ a ((k : ℚ) * H)) H = fmodQ a H := by
  have hkq : (0 : ℚ) < (k : ℚ) := by exact_mod_cast hk
  have hD : (0 : ℚ) < (k : ℚ) * H := mul_pos hkq hH
  have hx0 : 0 ≤ fmodQ a ((k : ℚ) * H) := fmodQ_nonneg a _ ha hD
  rw [fmodQ_eq_sub_mul_floor _ H hx0 hH, fmodQ_eq_sub_mul_floor a _ ha hD,
    fmodQ_eq_sub_mul_floor a H ha hH]
  have harg : (a - (k : ℚ) * H * (⌊a / ((k : ℚ) * H)⌋ : ℚ)) / H
      = a / H - ((k * ⌊a / ((k : ℚ) * H)⌋ : ℤ) : ℚ) := by
    push_cast
    field_simp
    ring
  rw [harg, Int.floor_sub_int]
  push_cast
  ring

/-- `f64_to_i64` after an `f64` floor is the mathematical floor. -/
theorem f64ToI64_floorQ (x : ℚ) : f64ToI64 (floorQ x) = ⌊x⌋ := by
  unfold f64ToI64 floorQ
  rw [ratFloor_eq, ratTrunc_intCast]

/-- The `f64` remainder of a nonnegative integer by a positive natural
is the integer remainder. -/
theorem fmodQ_intCast_natCast (m : ℤ) (k : ℕ) (hm : 0 ≤ m) (hk : 0 < k) :
    fmodQ ((m : ℤ) : ℚ) ((k : ℕ) : ℚ) = ((m % (k : ℤ) : ℤ) : ℚ) := by
  have hmq : (0 : ℚ) ≤ (m : ℚ) := by exact_mod_cast hm
  have hkq : (0 : ℚ) < ((k : ℕ) : ℚ) := by exact_mod_cast hk
  rw [fmodQ_eq_sub_mul_floor _ _ hmq hkq, Rat.floor_intCast_div_natCast,
    Int.emod_def]
  push_cast
  ring

/-- `f64_to_i64` on an integer value is the integer. -/
theorem f64ToI64_intCast (n : ℤ) : f64ToI64 ((n : ℤ) : ℚ) = n := by
  unfold f64ToI64
  exact ratTrunc_intCast n

/-- Helper: `DHm` (and `dhm`) render the positional
day/hour/minute decomposition. -/
theorem fTD_DHm_positional (v : ℚ) :
    formatTimeDifference v (String.mk ['D', 'H', 'm']) = specPositionalDHm v ∧
      formatTimeDifference v (String.mk ['d', 'h', 'm']) = specPositionalDHm v := by
  have ha : 0 ≤ |v| := abs_nonneg v
  have hHOUR : (0 : ℚ) < HOUR_MS := by rw [HOUR_MS, MINUTE_MS, SECOND_MS]; norm_num
  have hDAY : (0 : ℚ) < DAY_MS := by rw [DAY_MS]; positivity
  have hpre : (if (if v < 0 then (-1 : ℚ) else 1) < 0 then String.mk ['-'] else String.mk [])
      = (if v < 0 then String.mk ['-'] else String.mk []) := by
    by_cases hv : v < 0
    · rw [if_pos hv, if_pos hv, if_pos (show (-1 : ℚ) < 0 by norm_num)]
    · rw [if_neg hv, if_neg hv, if_neg (show ¬((1 : ℚ) < 0) by norm_num)]
  have h1 : fmodQ |v| DAY_MS = |v| - DAY_MS * (⌊|v| / DAY_MS⌋ : ℚ) :=
    fmodQ_eq_sub_mul_floor _ _ ha hDAY
  have hr1 : 0 ≤ |v| - DAY_MS * (⌊|v| / DAY_MS⌋ : ℚ) := by
    rw [← h1]; exact fmodQ_nonneg _ _ ha hDAY
  have h2 : fmodQ (|v| - DAY_MS * (⌊|v| / DAY_MS⌋ : ℚ)) HOUR_MS
      = (|v| - DAY_MS * (⌊|v| / DAY_MS⌋ : ℚ))
        - HOUR_MS * (⌊(|v| - DAY_MS * (⌊|v| / DAY_MS⌋ : ℚ)) / HOUR_MS⌋ : ℚ) :=
    fmodQ_eq_sub_mul_floor _ _ hr1 hHOUR
  constructor <;>
    · simp +decide only [formatTimeDifference, specPositionalDHm, if_true, if_false,
        ratFloor_eq, f64ToI64_floorQ, hpre, h1, h2]
      ring_nf

/-- Helper: `HmS` renders the positional hour/minute/second
decomposition (total hours first). -/
theorem fTD_HmS_positional (v : ℚ) :
    formatTimeDifference v (String.mk ['H', 'm', 'S']) = specPositionalHmS v := by
  have ha : 0 ≤ |v| := abs_nonneg v
  have hHOUR : (0 : ℚ) < HOUR_MS := by rw [HOUR_MS, MINUTE_MS, SECOND_MS]; norm_num
  have hMIN : (0 : ℚ) < MINUTE_MS := by rw [MINUTE_MS, SECOND_MS]; norm_num
  have hDAYeq : DAY_MS = ((24 : ℕ) : ℚ) * HOUR_MS := by rw [DAY_MS]; norm_num
  have hpre : (if (if v < 0 then (-1 : ℚ) else 1) < 0 then String.mk ['-'] else String.mk [])
      = (if v < 0 then String.mk ['-'] else String.mk []) := by
    by_cases hv : v < 0
    · rw [if_pos hv, if_pos hv, if_pos (show (-1 : ℚ) < 0 by norm_num)]
    · rw [if_neg hv, if_neg hv, if_neg (show ¬((1 : ℚ) < 0) by norm_num)]
  have hc1 : fmodQ (fmodQ |v| DAY_MS) HOUR_MS = fmodQ |v| HOUR_MS := by
    rw [hDAYeq]
    exact fmodQ_collapse _ _ 24 ha hHOUR (by norm_num)
  have h1 : fmodQ |v| HOUR_MS = |v| - HOUR_MS * (⌊|v| / HOUR_MS⌋ : ℚ) :=
    fmodQ_eq_sub_mul_floor _ _ ha hHOUR
  have hr1 : 0 ≤ |v| - HOUR_MS * (⌊|v| / HOUR_MS⌋ : ℚ) := by
    rw [← h1]; exact fmodQ_nonneg _ _ ha hHOUR
  have h2 : fmodQ (|v| - HOUR_MS * (⌊|v| / HOUR_MS⌋ : ℚ)) MINUTE_MS
      = (|v| - HOUR_MS * (⌊|v| / HOUR_MS⌋ : ℚ))
        - MINUTE_MS * (⌊(|v| - HOUR_MS * (⌊|v| / HOUR_MS⌋ : ℚ)) / MINUTE_MS⌋ : ℚ) :=
    fmodQ_eq_sub_mul_floor _ _ hr1 hMIN
  simp +decide only [formatTimeDifference, specPositionalHmS, if_true, if_false,
    ratFloor_eq, f64ToI64_floorQ, hpre, hc1, h1, h2]
  ring_nf

/-- Helper: `mS` renders the positional minute/second decomposition
(total minutes first). -/
theorem fTD_mS_positional (v : ℚ) :
    formatTimeDifference v (String.mk ['m', 'S']) = specPositionalmS v := by
  have ha : 0 ≤ |v| := abs_nonneg v
  have hHOUR : (0 : ℚ) < HOUR_MS := by rw [HOUR_MS, MINUTE_MS, SECOND_MS]; norm_num
  have hMIN : (0 : ℚ) < MINUTE_MS := by rw [MINUTE_MS, SECOND_MS]; norm_num
  have hDAYeq : DAY_MS = ((24 : ℕ) : ℚ) * HOUR_MS := by rw [DAY_MS]; norm_num
  have hHOUReq : HOUR_MS = ((60 : ℕ) : ℚ) * MINUTE_MS := by rw [HOUR_MS]; norm_num
  have hpre : (if (if v < 0 then (-1 : ℚ) else 1) < 0 then String.mk ['-'] else String.mk [])
      = (if v < 0 then String.mk ['-'] else String.mk []) := by
    by_cases hv : v < 0
    · rw [if_pos hv, if_pos hv, if_pos (show (-1 : ℚ) < 0 by norm_num)]
    · rw [if_neg hv, if_neg hv, if_neg (show ¬((1 : ℚ) < 0) by norm_num)]
  have hc1 : fmodQ (fmodQ |v| DAY_MS) HOUR_MS = fmodQ |v| HOUR_MS := by
    rw [hDAYeq]
    exact fmodQ_collapse _ _ 24 ha hHOUR (by norm_num)
  have hc2 : fmodQ (fmodQ |v| HOUR_MS) MINUTE_MS = fmodQ |v| MINUTE_MS := by
    rw [hHOUReq]
    exact fmodQ_collapse _ _ 60 ha hMIN (by norm_num)
  have h1 : fmodQ |v| MINUTE_MS = |v| - MINUTE_MS * (⌊|v| / MINUTE_MS⌋ : ℚ) :=
    fmodQ_eq_sub_mul_floor _ _ ha hMIN
  simp +decide only [formatTimeDifference, specPositionalmS, if_true, if_false,
    ratFloor_eq, f64ToI64_floorQ, hpre, hc1, hc2, h1]
  ring_nf

/-- Helper: `Hm` (and `hm`) render the positional hour/minute
decomposition (total hours first). -/
theorem fTD_Hm_positional (v : ℚ) :
    formatTimeDifference v (String.mk ['H', 'm']) = specPositionalHm v ∧
      formatTimeDifference v (String.mk ['h', 'm']) = specPositionalHm v := by
  have ha : 0 ≤ |v| := abs_nonneg v
  have hHOUR : (0 : ℚ) < HOUR_MS := by rw [HOUR_MS, MINUTE_MS, SECOND_MS]; norm_num
  have hDAYeq : DAY_MS = ((24 : ℕ) : ℚ) * HOUR_MS := by rw [DAY_MS]; norm_num
  have hpre : (if (if v < 0 then (-1 : ℚ) else 1) < 0 then String.mk ['-'] else String.mk [])
      = (if v < 0 then String.mk ['-'] else String.mk []) := by
    by_cases hv : v < 0
    · rw [if_pos hv, if_pos hv, if_pos (show (-1 : ℚ) < 0 by norm_num)]
    · rw [if_neg hv, if_neg hv, if_neg (show ¬((1 : ℚ) < 0) by norm_num)]
  have hc1 : fmodQ (fmodQ |v| DAY_MS) HOUR_MS = fmodQ |v| HOUR_MS := by
    rw [hDAYeq]
    exact fmodQ_collapse _ _ 24 ha hHOUR (by norm_num)
  have h1 : fmodQ |v| HOUR_MS = |v| - HOUR_MS * (⌊|v| / HOUR_MS⌋ : ℚ) :=
    fmodQ_eq_sub_mul_floor _ _ ha hHOUR
  constructor <;>
    · simp +decide only [formatTimeDifference, specPositionalHm, if_true, if_false,
        ratFloor_eq, f64ToI64_floorQ, hpre, hc1, h1]
      ring_nf

/-- Helper: what the `YMD` arm actually computes — years floored from the
total, a month field equal to the *total* count of 30-day months mod 12,
and a day field equal to the total days minus 30 × the total months
(clamped at zero). -/
theorem fTD_YMD_eq (v : ℚ) :
    formatTimeDifference v (String.mk ['Y', 'M', 'D']) =
      (if v < 0 then String.mk ['-'] else String.mk []) ++
        toString ⌊|v| / YEAR_MS⌋ ++ "年" ++
        toString (⌊|v| / MONTH_MS⌋ % 12) ++ "月" ++
        toString (max (⌊|v| / DAY_MS⌋ - 30 * ⌊|v| / MONTH_MS⌋) 0) ++ "天" := by
  have ha : 0 ≤ |v| := abs_nonneg v
  have hMONTH : (0 : ℚ) < MONTH_MS := by
    rw [MONTH_MS, DAY_MS, HOUR_MS, MINUTE_MS, SECOND_MS]; norm_num
  have hpre : (if (if v < 0 then (-1 : ℚ) else 1) < 0 then String.mk ['-'] else String.mk [])
      = (if v < 0 then String.mk ['-'] else String.mk []) := by
    by_cases hv : v < 0
    · rw [if_pos hv, if_pos hv, if_pos (show (-1 : ℚ) < 0 by norm_num)]
    · rw [if_neg hv, if_neg hv, if_neg (show ¬((1 : ℚ) < 0) by norm_num)]
  have hm0 : 0 ≤ ⌊|v| / MONTH_MS⌋ := Int.floor_nonneg.mpr (div_nonneg ha hMONTH.le)
  have hmod : fmodQ (floorQ (|v| / MONTH_MS)) 12
      = ((⌊|v| / MONTH_MS⌋ % 12 : ℤ) : ℚ) := by
    rw [floorQ, ratFloor_eq, show (12 : ℚ) = ((12 : ℕ) : ℚ) by norm_num]
    exact fmodQ_intCast_natCast _ 12 hm0 (by norm_num)
  have hmax1 : max (((⌊|v| / MONTH_MS⌋ % 12 : ℤ) : ℚ)) 0
      = ((⌊|v| / MONTH_MS⌋ % 12 : ℤ) : ℚ) := by
    apply max_eq_left
    exact_mod_cast Int.emod_nonneg _ (by norm_num)
  have hdays : floorQ (|v| / MONTH_MS) * (-30) + floorQ (|v| / DAY_MS)
      = ((⌊|v| / DAY_MS⌋ - 30 * ⌊|v| / MONTH_MS⌋ : ℤ) : ℚ) := by
    rw [floorQ, floorQ, ratFloor_eq, ratFloor_eq]
    push_cast
    ring
  have hmax2 : max (((⌊|v| / DAY_MS⌋ - 30 * ⌊|v| / MONTH_MS⌋ : ℤ) : ℚ)) 0
      = ((max (⌊|v| / DAY_MS⌋ - 30 * ⌊|v| / MONTH_MS⌋) 0 : ℤ) : ℚ) := by
    rw [show ((0 : ℚ)) = ((0 : ℤ) : ℚ) by norm_num]
    exact_mod_cast (Int.cast_max).symm
  simp +decide only [formatTimeDifference, if_true, if_false, hpre, hmod, hmax1,
    hdays, hmax2, f64ToI64_floorQ, f64ToI64_intCast]

/-- C3 counterexample: at exactly 365 days (31 536 000 000 ms) the `YMD`
token renders `1年0月5天`, not the positional decomposition `1年0月0天`
the claim requires. -/
theorem ymd_positional_counterexample :
    formatTimeDifference 31536000000 (String.mk ['Y', 'M', 'D']) = "1年0月5天" ∧
      specPositionalYMD 31536000000 = "1年0月0天" ∧
      formatTimeDifference 31536000000 (String.mk ['Y', 'M', 'D'])
        ≠ specPositionalYMD 31536000000 := by
  have habs : |(31536000000 : ℚ)| = 31536000000 := by
    rw [abs_of_nonneg]; norm_num
  have hy : ⌊(31536000000 : ℚ) / YEAR_MS⌋ = 1 := by
    rw [YEAR_MS, DAY_MS, HOUR_MS, MINUTE_MS, SECOND_MS]
    norm_num
  have hmo : ⌊(31536000000 : ℚ) / MONTH_MS⌋ = 12 := by
    rw [MONTH_MS, DAY_MS, HOUR_MS, MINUTE_MS, SECOND_MS]
    rw [show (31536000000 : ℚ) / (30 * (24 * (60 * (60 * 1000)))) = 73 / 6 by norm_num]
    norm_num
  have hd : ⌊(31536000000 : ℚ) / DAY_MS⌋ = 365 := by
    rw [DAY_MS, HOUR_MS, MINUTE_MS, SECOND_MS]
    norm_num
  have h1 : formatTimeDifference 31536000000 (String.mk ['Y', 'M', 'D']) = "1年0月5天" := by
    rw [fTD_YMD_eq, habs, hy, hmo, hd]
    rw [if_neg (show ¬((31536000000 : ℚ) < 0) by norm_num)]
    decide
  have h2 : specPositionalYMD 31536000000 = "1年0月0天" := by
    unfold specPositionalYMD
    dsimp only
    rw [habs]
    rw [show ratFloor ((31536000000 : ℚ) / YEAR_MS) = 1 by rw [ratFloor_eq]; exact hy]
    have hr1 : (31536000000 : ℚ) - ((1 : ℤ) : ℚ) * YEAR_MS = 0 := by
      rw [YEAR_MS, DAY_MS, HOUR_MS, MINUTE_MS, SECOND_MS]; norm_num
    rw [hr1]
    rw [show ratFloor ((0 : ℚ) / MONTH_MS) = 0 by rw [ratFloor_eq]; norm_num]
    have hr2 : (0 : ℚ) - ((0 : ℤ) : ℚ) * MONTH_MS = 0 := by norm_num
    rw [hr2]
    rw [show ratFloor ((0 : ℚ) / DAY_MS) = 0 by rw [ratFloor_eq]; norm_num]
    rw [if_neg (show ¬((31536000000 : ℚ) < 0) by norm_num)]
    decide
  refine ⟨h1, h2, ?_⟩
  rw [h1, h2]
  decide

/-- C3 amended: the multi-unit tokens `DHm`/`dhm`, `HmS`, `mS` and
`Hm`/`hm` do render the positional decomposition of `|v|` with each
field floored, but `YMD` does not: its month field is the total count of
30-day months mod 12 and its day field is total days − 30 × total months
(clamped at 0), so 365 days render as `1年0月5天`. -/
theorem multi_unit_token_rendering (v : ℚ) :
    formatTimeDifference v (String.mk ['D', 'H', 'm']) = specPositionalDHm v ∧
    formatTimeDifference v (String.mk ['d', 'h', 'm']) = specPositionalDHm v ∧
    formatTimeDifference v (String.mk ['H', 'm', 'S']) = specPositionalHmS v ∧
    formatTimeDifference v (String.mk ['m', 'S']) = specPositionalmS v ∧
    formatTimeDifference v (String.mk ['H', 'm']) = specPositionalHm v ∧
    formatTimeDifference v (String.mk ['h', 'm']) = specPositionalHm v ∧
    formatTimeDifference v (String.mk ['Y', 'M', 'D']) =
      (if v < 0 then String.mk ['-'] else String.mk []) ++
        toString ⌊|v| / YEAR_MS⌋ ++ "年" ++
        toString (⌊|v| / MONTH_MS⌋ % 12) ++ "月" ++
        toString (max (⌊|v| / DAY_MS⌋ - 30 * ⌊|v| / MONTH_MS⌋) 0) ++ "天" :=
  ⟨(fTD_DHm_positional v).1, (fTD_DHm_positional v).2, fTD_HmS_positional v,
    fTD_mS_positional v, (fTD_Hm_positional v).1, (fTD_Hm_positional v).2,
    fTD_YMD_eq v⟩

/-- C4 counterexample: the unrecognized duration-like token `W` is not
routed to duration formatting at all — `format_value_with_spec` falls to
its default stringification branch, so two days' worth of milliseconds
renders as the raw number `172800000`, not the ceiling-days value `2`
that the `D`-style fallback would produce. -/
theorem unrecognized_token_counterexample :
    formatValueWithSpec trivialOracles (.num 172800000) (String.mk ['W'])
        = .ok "172800000" ∧
      formatTimeDifference 172800000 (String.mk ['D']) = "2" ∧
      formatValueWithSpec trivialOracles (.num 172800000) (String.mk ['W'])
        ≠ .ok (formatTimeDifference 172800000 (String.mk ['D'])) := by
  have ha : formatValueWithSpec trivialOracles (.num 172800000) (String.mk ['W'])
      = .ok "172800000" := by decide
  have hceil : ⌈(172800000 : ℚ) / DAY_MS⌉ = 2 := by
    rw [DAY_MS, HOUR_MS, MINUTE_MS, SECOND_MS, Int.ceil_eq_iff]
    constructor <;> norm_num
  have hb : formatTimeDifference 172800000 (String.mk ['D']) = "2" := by
    have habs : |(172800000 : ℚ)| = 172800000 := by
      rw [abs_of_nonneg]; norm_num
    simp +decide only [formatTimeDifference, if_true, if_false, ceilQ, ratCeil_eq,
      habs, hceil]
    rw [show ((1 : ℚ)) * (((2 : ℤ)) : ℚ) = (((2 : ℤ)) : ℚ) by norm_num,
      formatNumber_intCast]
    decide
  refine ⟨ha, hb, ?_⟩
  rw [ha, hb]
  decide

/-- C4 amended: a format token outside the recognized duration set never
reaches duration formatting; unless it matches one of the other specifier
shapes (`%`, `d`, `.Nf`, `<body>%`) it is handled by the default
stringification branch. The recognized set is exactly the one the claim
lists. -/
theorem unrecognized_spec_defaults :
    (∀ (O : Oracles) (value : Json) (spec : String),
      isTimeFormat spec = false →
      spec ≠ String.mk ['%'] →
      spec ≠ String.mk ['d'] →
      ¬(spec.data.head? = some '.' ∧ spec.data.getLast? = some 'f') →
      spec.data.getLast? ≠ some '%' →
      formatValueWithSpec O value spec = formatValueDefault O value)
    ∧ (∀ spec : String, isTimeFormat spec = true ↔
        spec ∈ ["Y", "years", "M", "months", "D", "days", "H", "hours", "m",
          "minutes", "S", "seconds", "YMD", "DHm", "HmS", "mS", "Hm", "dhm", "hm"]) := by
  constructor
  · intro O value spec h1 h2 h3 h4 h5
    unfold formatValueWithSpec
    simp [h1, h2, h3, h4, h5]
  · intro spec
    simp [isTimeFormat]
    tauto

/-- Witness for C4's amended theorem at a concrete input: the token `W`
with the number 5 renders through the default branch as `5`. -/
theorem unrecognized_spec_defaults_witness :
    isTimeFormat (String.mk ['W']) = false ∧
      formatValueWithSpec trivialOracles (.num 5) (String.mk ['W'])
        = formatValueDefault trivialOracles (.num 5) ∧
      formatValueDefault trivialOracles (.num 5) = .ok "5" :=
  ⟨by decide,
    unrecognized_spec_defaults.1 trivialOracles (.num 5) (String.mk ['W'])
      (by decide) (by decide) (by decide) (by decide) (by decide),
    by decide⟩

/-- C8: the lenient coercion `value_token_to_f64` is total by
construction (it returns a rational for every token and datum, never an
error), and in particular: a token that is not a float literal and not
`now()` maps a JSON bool to 1/0, a JSON null to 0, and any token whose
strict extraction fails to 0. -/
theorem value_token_coercion_total (O : Oracles) (token : String) (data : Json)
    (hno : parseF64 token = none)
    (hnow : eqIgnoreAsciiCase token (String.mk ['n', 'o', 'w', '(', ')']) = false) :
    (∀ b, extractValue O token data = .ok (.bool b) →
      valueTokenToF64 O token data = if b then 1 else 0) ∧
    (extractValue O token data = .ok .null → valueTokenToF64 O token data = 0) ∧
    (∀ msg, extractValue O token data = .error msg →
      valueTokenToF64 O token data = 0) := by
  refine ⟨?_, ?_, ?_⟩
  · intro b hex
    unfold valueTokenToF64
    rw [hno, hnow]
    simp only [Bool.false_eq_true, if_false, hex]
    cases b <;> rfl
  · intro hex
    unfold valueTokenToF64
    rw [hno, hnow]
    simp only [Bool.false_eq_true, if_false, hex]
    rfl
  · intro msg hex
    unfold valueTokenToF64
    rw [hno, hnow]
    simp only [Bool.false_eq_true, if_false, hex]

/-- Witness for C8 at concrete inputs: against `{"flag": true, "z": null}`
the token `flag` coerces to 1, `z` to 0, and the unresolved token
`missing` to 0. -/
theorem value_token_coercion_total_witness :
    valueTokenToF64 trivialOracles ("flag")
        (.obj [(("flag"), .bool true), (("z"), .null)]) = 1 ∧
      valueTokenToF64 trivialOracles ("z")
        (.obj [(("flag"), .bool true), (("z"), .null)]) = 0 ∧
      valueTokenToF64 trivialOracles ("missing")
        (.obj [(("flag"), .bool true), (("z"), .null)]) = 0 := by
  refine ⟨?_, ?_, ?_⟩
  · rw [(value_token_coercion_total trivialOracles ("flag")
      (.obj [(("flag"), .bool true), (("z"), .null)]) (by decide) (by decide)).1
      true (by rfl)]
    decide
  · exact (value_token_coercion_total trivialOracles ("z")
      (.obj [(("flag"), .bool true), (("z"), .null)]) (by decide) (by decide)).2.1
      (by rfl)
  · exact (value_token_coercion_total trivialOracles ("missing")
      (.obj [(("flag"), .bool true), (("z"), .null)]) (by decide) (by decide)).2.2
      ("Missing field: missing") (by rfl)

/-! ### Scanner lemmas for `substitute_env` (C9, C10) -/

/-- Escape protection is the identity on backslash-free text. -/
theorem replaceEscapedDollar_id (l : List Char) (h : ∀ c ∈ l, c ≠ '\\') :
    replaceEscapedDollar l = l := by
  induction l with
  | nil => simp [replaceEscapedDollar]
  | cons c rest ih =>
    simp only [replaceEscapedDollar]
    rw [if_neg fun hcon => h c (List.mem_cons_self c rest) hcon.1,
      ih fun d hd => h d (List.mem_cons_of_mem c hd)]

/-- Env-var expansion is the identity on dollar-free text. -/
theorem substEnvVars_noDollar_id (env : EnvMap) (l : List Char)
    (h : ∀ c ∈ l, c ≠ '$') : substEnvVars env l = l := by
  induction l with
  | nil => simp [substEnvVars]
  | cons c rest ih =>
    simp only [substEnvVars]
    rw [if_neg fun hcon => h c (List.mem_cons_self c rest) hcon.1,
      ih fun d hd => h d (List.mem_cons_of_mem c hd)]

/-- Env-var expansion passes a dollar-free prefix through verbatim. -/
theorem substEnvVars_append_noDollar (env : EnvMap) (l r : List Char)
    (h : ∀ c ∈ l, c ≠ '$') :
    substEnvVars env (l ++ r) = l ++ substEnvVars env r := by
  induction l with
  | nil => simp
  | cons c rest ih =>
    rw [List.cons_append]
    simp only [substEnvVars]
    rw [if_neg fun hcon => h c (List.mem_cons_self c rest) hcon.1,
      ih fun d hd => h d (List.mem_cons_of_mem c hd), List.cons_append]

/-- Placeholder restoration is the identity on NUL-free text. -/
theorem restoreDollar_id (l : List Char) (h : ∀ c ∈ l, c ≠ '\x00') :
    restoreDollar l = l := by
  induction l with
  | nil => simp [restoreDollar]
  | cons c rest ih =>
    simp only [restoreDollar]
    rw [if_neg, ih fun d hd => h d (List.mem_cons_of_mem c hd)]
    intro htake
    rw [show (8 : ℕ) = 7 + 1 from rfl, List.take_succ_cons] at htake
    unfold dollarPlaceholderChars at htake
    exact h c (List.mem_cons_self c rest) (List.cons.injEq .. ▸ htake).1

/-- When the candidate name contains a character outside `[A-Z0-9_]` and
no `}`, the scan for the closing brace stops at that character, so the
span cannot close. -/
theorem dropWhile_head_bad (name rest' : List Char)
    (hnb : ∀ c ∈ name, c ≠ '}') (hbad : ∃ c ∈ name, isEnvNameChar c = false) :
    (List.dropWhile isEnvNameChar (name ++ rest')).head? ≠ some '}' := by
  induction name with
  | nil =>
    rcases hbad with ⟨c, hc, _⟩
    exact absurd hc (List.not_mem_nil c)
  | cons c name' ih =>
    by_cases hc : isEnvNameChar c = true
    · rcases hbad with ⟨d, hd, hdbad⟩
      rcases List.mem_cons.mp hd with rfl | hd'
      · rw [hc] at hdbad
        exact absurd hdbad (by decide)
      · rw [List.cons_append, List.dropWhile_cons, if_pos hc]
        exact ih (fun x hx => hnb x (List.mem_cons_of_mem c hx)) ⟨d, hd', hdbad⟩
    · rw [List.cons_append, List.dropWhile_cons, if_neg hc, List.head?_cons]
      intro hcon
      exact hnb c (List.mem_cons_self c name') (Option.some.injEq .. ▸ hcon)

/-- C10: a `${name}` span whose name contains a character outside
`[A-Z0-9_]` (a lowercase letter, say) is copied to the output verbatim,
whatever the environment holds for that name; surrounding text free of
`$`, `\` and NUL also passes through unchanged. -/
theorem lowercase_placeholder_not_expanded (env : EnvMap)
    (pre name post : List Char)
    (hpre : ∀ c ∈ pre, c ≠ '$' ∧ c ≠ '\\' ∧ c ≠ '\x00')
    (hpost : ∀ c ∈ post, c ≠ '$' ∧ c ≠ '\\' ∧ c ≠ '\x00')
    (hname : ∀ c ∈ name, c ≠ '$' ∧ c ≠ '\\' ∧ c ≠ '\x00' ∧ c ≠ '{' ∧ c ≠ '}')
    (hbad : ∃ c ∈ name, isEnvNameChar c = false) :
    substituteEnv env (String.mk (pre ++ ('$' :: '{' :: (name ++ ('}' :: post)))))
      = String.mk (pre ++ ('$' :: '{' :: (name ++ ('}' :: post)))) := by
  unfold substituteEnv
  have hmem : ∀ c ∈ pre ++ ('$' :: '{' :: (name ++ ('}' :: post))),
      c ≠ '\\' ∧ c ≠ '\x00' := by
    intro c hc
    rcases List.mem_append.mp hc with hc | hc
    · exact ⟨(hpre c hc).2.1, (hpre c hc).2.2⟩
    · rcases List.mem_cons.mp hc with rfl | hc
      · exact ⟨by decide, by decide⟩
      · rcases List.mem_cons.mp hc with rfl | hc
        · exact ⟨by decide, by decide⟩
        · rcases List.mem_append.mp hc with hc | hc
          · exact ⟨(hname c hc).2.1, (hname c hc).2.2.1⟩
          · rcases List.mem_cons.mp hc with rfl | hc
            · exact ⟨by decide, by decide⟩
            · exact ⟨(hpost c hc).2.1, (hpost c hc).2.2⟩
  rw [show (String.mk (pre ++ ('$' :: '{' :: (name ++ ('}' :: post))))).data
      = pre ++ ('$' :: '{' :: (name ++ ('}' :: post))) from rfl]
  rw [replaceEscapedDollar_id _ fun c hc => (hmem c hc).1]
  rw [substEnvVars_append_noDollar env pre _ fun c hc => (hpre c hc).1]
  have hspan : substEnvVars env ('$' :: '{' :: (name ++ ('}' :: post)))
      = '$' :: '{' :: (name ++ ('}' :: post)) := by
    rw [substEnvVars.eq_2, if_pos ⟨rfl, rfl⟩, if_neg]
    · congr 1
      rw [substEnvVars.eq_2, if_neg (fun hcon => absurd hcon.1 (by decide))]
      congr 1
      rw [substEnvVars_append_noDollar env name _ fun c hc => (hname c hc).1]
      congr 1
      refine substEnvVars_noDollar_id env ('}' :: post) ?_
      intro c hc
      rcases List.mem_cons.mp hc with rfl | hc
      · decide
      · exact (hpost c hc).1
    · intro hcon
      refine dropWhile_head_bad name ('}' :: post)
        (fun c hc => (hname c hc).2.2.2.2) hbad ?_
      simpa using hcon.2
  rw [hspan]
  exact congrArg String.mk (restoreDollar_id _ fun c hc => (hmem c hc).2)

/-- Witness for C10 at a concrete input: with `path=surprise` set in the
environment, the template text `a ${path} b` survives substitution
unchanged. -/
theorem lowercase_placeholder_not_expanded_witness :
    lowercaseEnvOracles.env ("path") = some ("surprise") ∧
      substituteEnv lowercaseEnvOracles.env ("a $\x7bpath\x7d b")
        = "a $\x7bpath\x7d b" := by
  constructor
  · decide
  · exact lowercase_placeholder_not_expanded lowercaseEnvOracles.env
      ['a', ' '] ['p', 'a', 't', 'h'] [' ', 'b'] (by decide) (by decide)
      (by decide) ⟨'p', by decide, by decide⟩

/-- Helper: the exact expansion of one well-formed `${NAME}` span —
`substitute_env` replaces it with the variable's value (empty when
unset) and does not rescan the inserted value. -/
theorem substituteEnv_single_span (env : EnvMap) (name : List Char)
    (hne : name ≠ []) (hclass : ∀ c ∈ name, isEnvNameChar c = true)
    (hval : ∀ c ∈ ((env (String.mk name)).getD (String.mk [])).data, c ≠ '\x00') :
    substituteEnv env (String.mk ('$' :: '{' :: (name ++ ['}'])))
      = (env (String.mk name)).getD (String.mk []) := by
  have hnotc : ∀ c ∈ name, c ≠ '\\' ∧ c ≠ '$' := by
    intro c hc
    have h := hclass c hc
    constructor <;> (rintro rfl; exact absurd h (by decide))
  have htake : List.takeWhile isEnvNameChar (name ++ ['}']) = name := by
    rw [List.takeWhile_append, if_pos]
    · rw [show List.takeWhile isEnvNameChar ['}'] = [] by decide, List.append_nil]
    · rw [List.takeWhile_eq_self_iff.mpr hclass]
  have hdrop : List.dropWhile isEnvNameChar (name ++ ['}']) = ['}'] := by
    rw [List.dropWhile_append, if_pos]
    · decide
    · rw [List.dropWhile_eq_nil_iff.mpr hclass]
      rfl
  unfold substituteEnv
  rw [show (String.mk ('$' :: '{' :: (name ++ ['}']))).data
      = '$' :: '{' :: (name ++ ['}']) from rfl]
  rw [replaceEscapedDollar_id _ ?noBS]
  case noBS =>
    intro c hc
    rcases List.mem_cons.mp hc with rfl | hc
    · decide
    · rcases List.mem_cons.mp hc with rfl | hc
      · decide
      · rcases List.mem_append.mp hc with hc | hc
        · exact (hnotc c hc).1
        · rcases List.mem_cons.mp hc with rfl | hc
          · decide
          · exact absurd hc (List.not_mem_nil c)
  rw [substEnvVars.eq_2, if_pos ⟨rfl, rfl⟩]
  rw [show ('{' :: (name ++ ['}'])).tail = name ++ ['}'] from rfl, htake, hdrop]
  rw [if_pos ⟨hne, rfl⟩]
  rw [show (['}'] : List Char).tail = [] from rfl]
  rw [show substEnvVars env [] = [] by rw [substEnvVars.eq_1], List.append_nil]
  rw [restoreDollar_id _ hval]

/-- C9: environment-variable substitution expands every `${NAME}` span to
the variable's value (empty when unset) and renders every escaped `\$`
as a literal `$` that does not re-enable substitution. Concretely, with
`TEST_VAR=test_value`, substituting `API: ${TEST_VAR}, 余额:\${quota:.2f}`
yields exactly `API: test_value, 余额:${quota:.2f}` with the surviving
`${quota:.2f}` not expanded further. -/
theorem env_substitution_expands_and_protects :
    substituteEnv testEnvOracles.env
        ("API: $\x7bTEST_VAR\x7d, 余额:\\$\x7bquota:.2f\x7d")
      = "API: test_value, 余额:$\x7bquota:.2f\x7d" ∧
    (∀ (env : EnvMap) (name : List Char) (v : String),
      name ≠ [] → (∀ c ∈ name, isEnvNameChar c = true) →
      env (String.mk name) = some v → (∀ c ∈ v.data, c ≠ '\x00') →
      substituteEnv env (String.mk ('$' :: '{' :: (name ++ ['}']))) = v) ∧
    (∀ (env : EnvMap) (name : List Char),
      name ≠ [] → (∀ c ∈ name, isEnvNameChar c = true) →
      env (String.mk name) = none →
      substituteEnv env (String.mk ('$' :: '{' :: (name ++ ['}'])))
        = String.mk []) ∧
    (∀ env : EnvMap, substituteEnv env (String.mk ['\\', '$']) = String.mk ['$']) := by
  refine ⟨?_, ?_, ?_, ?_⟩
  · simp +decide [substituteEnv, replaceEscapedDollar, substEnvVars, restoreDollar,
      dollarPlaceholderChars, isEnvNameChar, isAsciiUpper, isAsciiDigit,
      testEnvOracles, trivialOracles]
  · intro env name v hne hclass hsome hval
    have h := substituteEnv_single_span env name hne hclass
    rw [hsome] at h
    exact h (by simpa using hval)
  · intro env name hne hclass hnone
    have h := substituteEnv_single_span env name hne hclass
    rw [hnone] at h
    exact h (by intro c hc; exact absurd hc (List.not_mem_nil c))
  · intro env
    simp [substituteEnv, replaceEscapedDollar, substEnvVars, restoreDollar,
      dollarPlaceholderChars]

/-- Witness for C9 at a concrete input: `${TEST_VAR}` alone expands to
`test_value`. -/
theorem env_substitution_expands_and_protects_witness :
    substituteEnv testEnvOracles.env ("$\x7bTEST_VAR\x7d") = "test_value" :=
  env_substitution_expands_and_protects.2.1 testEnvOracles.env
    ['T', 'E', 'S', 'T', '_', 'V', 'A', 'R'] ("test_value") (by decide)
    (by decide) (by decide) (by decide)

/-! ### Template scanner lemmas (C7) -/

/-- The template scanner copies brace-free text verbatim. -/
theorem renderTemplateGo_noBrace_id (O : Oracles) (data : Json) (l : List Char)
    (h : ∀ c ∈ l, isSpanChar c = true) :
    renderTemplateGo O data l = l := by
  induction l with
  | nil => rw [renderTemplateGo.eq_1]
  | cons c rest ih =>
    rw [renderTemplateGo.eq_2, if_neg, ih fun d hd => h d (List.mem_cons_of_mem c hd)]
    intro hcon
    have := h c (List.mem_cons_self c rest)
    rw [hcon] at this
    exact absurd this (by decide)

/-- The template scanner passes a brace-free prefix through and
continues on the remainder. -/
theorem renderTemplateGo_append_noBrace (O : Oracles) (data : Json)
    (l r : List Char) (h : ∀ c ∈ l, isSpanChar c = true) :
    renderTemplateGo O data (l ++ r) = l ++ renderTemplateGo O data r := by
  induction l with
  | nil => simp
  | cons c rest ih =>
    rw [List.cons_append, renderTemplateGo.eq_2, if_neg,
      ih fun d hd => h d (List.mem_cons_of_mem c hd), List.cons_append]
    intro hcon
    have := h c (List.mem_cons_self c rest)
    rw [hcon] at this
    exact absurd this (by decide)

/-- One placeholder span: the scanner isolates the brace-free nonempty
expression, renders it (echoing the literal `{expr}` on failure), and
continues after the closing brace. -/
theorem renderTemplateGo_span (O : Oracles) (data : Json) (expr rest : List Char)
    (hne : expr ≠ []) (hok : ∀ c ∈ expr, isSpanChar c = true) :
    renderTemplateGo O data ('{' :: (expr ++ ('}' :: rest)))
      = (match renderPlaceholder O (String.mk expr) data with
         | .ok s => s.data
         | .error _ => '{' :: expr ++ ['}']) ++ renderTemplateGo O data rest := by
  have htake : List.takeWhile isSpanChar (expr ++ ('}' :: rest)) = expr := by
    rw [List.takeWhile_append, if_pos]
    · rw [show List.takeWhile isSpanChar ('}' :: rest) = [] by
        rw [List.takeWhile_cons, if_neg (by decide)]]
      exact List.append_nil expr
    · rw [List.takeWhile_eq_self_iff.mpr hok]
  have hdrop : List.dropWhile isSpanChar (expr ++ ('}' :: rest)) = '}' :: rest := by
    rw [List.dropWhile_append, if_pos]
    · rw [List.dropWhile_cons, if_neg (by decide)]
    · rw [List.dropWhile_eq_nil_iff.mpr hok]
      rfl
  rw [renderTemplateGo.eq_2, if_pos rfl, htake, hdrop, if_pos ⟨hne, rfl⟩]
  rfl

/-- A placeholder whose span contains no `:` is evaluated as a bare
expression with no format spec; an evaluation error becomes the
placeholder's error. -/
theorem renderPlaceholder_noColon (O : Oracles) (e : List Char) (data : Json)
    (h : ∀ c ∈ e, c ≠ ':') :
    renderPlaceholder O (String.mk e) data
      = match evaluateExpression O (trimStr (String.mk e)) data with
        | .error msg => .error msg
        | .ok value => .ok (defaultOutput value) := by
  unfold renderPlaceholder
  rw [show (String.mk e).data = e from rfl]
  rw [show e.findIdx? (· = ':') = none by
    rw [List.findIdx?_eq_none_iff]
    intro x hx
    simp [h x hx]]

/-- C7: a placeholder whose expression fails with `Division by zero`
echoes its literal text `{expr}` into the output at its position, while
the surrounding text and every other placeholder of the same template
render normally. -/
theorem div_by_zero_echoes_only_that_placeholder
    (O : Oracles) (data : Json) (pre mid post e1 e2 : List Char) (s : String)
    (hpre : ∀ c ∈ pre, isSpanChar c = true)
    (hmid : ∀ c ∈ mid, isSpanChar c = true)
    (hpost : ∀ c ∈ post, isSpanChar c = true)
    (he1ne : e1 ≠ []) (he1ok : ∀ c ∈ e1, isSpanChar c = true)
    (he1nc : ∀ c ∈ e1, c ≠ ':')
    (he2ne : e2 ≠ []) (he2ok : ∀ c ∈ e2, isSpanChar c = true)
    (hdiv : evaluateExpression O (trimStr (String.mk e1)) data
      = .error ("Division by zero"))
    (hok2 : renderPlaceholder O (String.mk e2) data = .ok s) :
    renderTemplate O
        (String.mk pre ++ "\x7b" ++ String.mk e1 ++ "\x7d" ++ String.mk mid ++
          "\x7b" ++ String.mk e2 ++ "\x7d" ++ String.mk post) data
      = String.mk pre ++ "\x7b" ++ String.mk e1 ++ "\x7d" ++ String.mk mid ++
          s ++ String.mk post := by
  have herr : renderPlaceholder O (String.mk e1) data
      = .error ("Division by zero") := by
    rw [renderPlaceholder_noColon O e1 data he1nc, hdiv]
  have hdata : (String.mk pre ++ "\x7b" ++ String.mk e1 ++ "\x7d" ++ String.mk mid ++
        "\x7b" ++ String.mk e2 ++ "\x7d" ++ String.mk post).data
      = pre ++ ('{' :: (e1 ++ ('}' :: (mid ++ ('{' :: (e2 ++ ('}' :: post))))))) := by
    simp [String.data_append]
  apply String.ext
  unfold renderTemplate
  rw [show (String.mk (renderTemplateGo O data
      (String.mk pre ++ "\x7b" ++ String.mk e1 ++ "\x7d" ++ String.mk mid ++
        "\x7b" ++ String.mk e2 ++ "\x7d" ++ String.mk post).data)).data
      = renderTemplateGo O data
        (String.mk pre ++ "\x7b" ++ String.mk e1 ++ "\x7d" ++ String.mk mid ++
          "\x7b" ++ String.mk e2 ++ "\x7d" ++ String.mk post).data from rfl]
  rw [hdata]
  rw [renderTemplateGo_append_noBrace O data pre _ hpre]
  rw [renderTemplateGo_span O data e1 _ he1ne he1ok, herr]
  rw [renderTemplateGo_append_noBrace O data mid _ hmid]
  rw [renderTemplateGo_span O data e2 _ he2ne he2ok, hok2]
  rw [renderTemplateGo_noBrace_id O data post hpost]
  simp [String.data_append]

set_option maxHeartbeats 1000000 in
/-- Witness for C7 at a concrete input: rendering
`a \x7b1/0\x7d b \x7bx\x7d c` against `{"quota": 500000, "x": 5}` yields
`a \x7b1/0\x7d b 5 c` — the dividing placeholder is echoed literally, the
other placeholder renders its value. -/
theorem div_by_zero_echoes_only_that_placeholder_witness :
    renderTemplate trivialOracles ("a \x7b1/0\x7d b \x7bx\x7d c") sampleData
      = "a \x7b1/0\x7d b 5 c" := by
  have hdiv : evaluateExpression trivialOracles
      (trimStr (String.mk ['1', '/', '0'])) sampleData
      = .error ("Division by zero") := by rfl
  have hok2 : renderPlaceholder trivialOracles (String.mk ['x']) sampleData
      = .ok ("5") := by rfl
  have h := div_by_zero_echoes_only_that_placeholder trivialOracles sampleData
    ['a', ' '] [' ', 'b', ' '] [' ', 'c'] ['1', '/', '0'] ['x'] ("5")
    (by decide) (by decide) (by decide) (by decide) (by decide) (by decide)
    (by decide) (by decide) hdiv hok2
  exact h

end Statusline
